import Mathlib

/-!
Verification of the streaming_hdp DOM Model, Instance Manager and HTML
sanitizer against their natural-language specification.

The Go source decodes protocol payloads with `encoding/json` into
`map[string]interface{}` values; we embed those as association lists over a
`JsonValue` type (every JSON number becomes a `Rat`, since every IEEE float64
value is a rational).  Go map reads of a missing key return the zero value;
Go type assertions in their one-result form panic on mismatch, which we embed
as `Option` with `none` standing for a runtime panic.
-/

set_option autoImplicit false

universe u v

/-- A decoded JSON value, as produced by Go generic JSON decoding. -/
inductive JsonValue : Type where
  | null : JsonValue
  | bool (b : Bool) : JsonValue
  | num (q : Rat) : JsonValue
  | str (s : String) : JsonValue
  | arr (elems : List JsonValue) : JsonValue
  | obj (fields : List (String × JsonValue)) : JsonValue

/-- `dom.Node` from the source: `type Node map[string]interface{}`. -/
abbrev Node := List (String × JsonValue)

/-- Lookup in a Go map embedded as an association list (first match). -/
def assocLookup {κ : Type u} {α : Type v} [BEq κ] : List (κ × α) → κ → Option α
  | [], _ => none
  | (k', v) :: rest, k => if k' == k then some v else assocLookup rest k

/-- Go map assignment `m[k] = v`: replace an existing binding or append. -/
def assocInsert {κ : Type u} {α : Type v} [BEq κ] : List (κ × α) → κ → α → List (κ × α)
  | [], k, v => [(k, v)]
  | (k', v') :: rest, k, v =>
    if k' == k then (k, v) :: rest else (k', v') :: assocInsert rest k v

/-- Go `delete(m, k)`. -/
def assocErase {κ : Type u} {α : Type v} [BEq κ] (m : List (κ × α)) (k : κ) : List (κ × α) :=
  m.filter (fun kv => !(kv.1 == k))

/-- Go `_, ok := m[k]` membership test. -/
def assocMem {κ : Type u} {α : Type v} [BEq κ] (m : List (κ × α)) (k : κ) : Bool :=
  (assocLookup m k).isSome

/-- ASCII lowercase mapping, as `strings.ToLower` acts on the ASCII element
names of the protocol (core `String.toLower` does not reduce well in the
kernel). -/
def strToLower (s : String) : String :=
  String.mk (s.data.map (fun c =>
    if 65 ≤ c.toNat ∧ c.toNat ≤ 90 then Char.ofNat (c.toNat + 32) else c))

/-- Go map read of a `map[string]string` with zero value `""` for missing keys. -/
def assocFind (m : List (String × String)) (k : String) : String :=
  (assocLookup m k).getD ""

/-- The `DOM` struct of package `dom`: per-document state of the DOM Model. -/
structure DOM where
  /-- Maps from the node ID to the backend node ID. -/
  nodeIDMapping : List (String × String)
  /-- A set containing the backend node IDs. -/
  backendNodeIDs : List (String × Bool)
  /-- Maps from backend node ID to the node type. -/
  nodeTypeMapping : List (String × String)

deriving DecidableEq

/-- `NewDOMModel` from the source: all three maps start empty. -/
def NewDOMModel : DOM :=
  { nodeIDMapping := [], backendNodeIDs := [], nodeTypeMapping := [] }

/-- Field-name constant `NodeID = "nodeId"`. -/
def NodeID : String := "nodeId"

/-- Field-name constant `BackendNodeID = "backendNodeId"`. -/
def BackendNodeID : String := "backendNodeId"

/-- Field-name constant `NodeName = "nodeName"`. -/
def NodeName : String := "nodeName"

/-- Field-name constant `NodeValue = "nodeValue"`. -/
def NodeValue : String := "nodeValue"

/-- Field-name constant `Children = "children"`. -/
def Children : String := "children"

/-- Field-name constant `ParentNodeID = "parentNodeId"`. -/
def ParentNodeID : String := "parentNodeId"

/-- Field-name constant `PreviousNodeID = "previousNodeId"`. -/
def PreviousNodeID : String := "previousNodeId"

/-- Field-name constant `NodeField = "node"`. -/
def NodeField : String := "node"

/-- Field-name constant `Attributes = "attributes"`. -/
def Attributes : String := "attributes"

/-- Field-name constant `Nodes = "nodes"`. -/
def Nodes : String := "nodes"

/-- Field-name constant `ParentID = "parentId"`. -/
def ParentID : String := "parentId"

/-- Field-name constant `Name = "name"`. -/
def Name : String := "name"

/-- Field-name constant `Value = "value"`. -/
def Value : String := "value"

/-- The `domjson.Action` enumeration (0 is reserved invalid); named `DomAction`
here because Mathlib already declares an `Action`. -/
inductive DomAction : Type where
  | invalid : DomAction
  | insert : DomAction
  | remove : DomAction
  | modify : DomAction

deriving DecidableEq

/-- The `domjson.Node` struct: one node of a serialized DOM update. -/
structure JsonNode where
  NodeID : String := ""
  ParentNodeID : String := ""
  PreviousNodeID : String := ""
  ElementType : String := ""
  Attributes : List (String × String) := []
  Text : String := ""

deriving DecidableEq

/-- The `domjson.DOMUpdate` struct. -/
structure DOMUpdate where
  Action : DomAction
  Node : JsonNode

deriving DecidableEq

/-- Go `int(f)` conversion of a float64: truncation toward zero.  On the
rational embedding of the float value this is `sign q * (natAbs num / den)`. -/
def intTruncOfRat (q : Rat) : Int :=
  Int.sign q.num * ((q.num.natAbs / q.den : Nat) : Int)

/-- `getNodeIDStr` from the source: read a numeric ID field of a node and
render it as a decimal string; `0` denotes a null node and becomes `""`.
An absent field or a non-number value is an error (never a panic). -/
def getNodeIDStr (node : Node) (field : String) : Except String String :=
  match assocLookup node field with
  | none => .error ("node missing field " ++ field)
  | some idInterface =>
    match idInterface with
    | .num idFloat =>
      if idFloat = 0 then
        .ok ""
      else
        .ok (toString (intTruncOfRat idFloat))
    | _ => .error ("field " ++ field ++ " is not a number")

/-- The index loop of `getAttributes`: consume the flat `[k0, v0, k1, v1, ...]`
attribute list two entries at a time.  A trailing odd entry makes the Go code
read index `i+1` past the end of the slice, and a non-string entry fails a
one-result type assertion; both are panics, embedded as `none`. -/
def getAttributesLoop : List JsonValue → List (String × String) → Option (List (String × String))
  | [], attributesMap => some attributesMap
  | [_], _ => none
  | k :: v :: rest, attributesMap =>
    match k, v with
    | .str ks, .str vs => getAttributesLoop rest (assocInsert attributesMap ks vs)
    | _, _ => none

/-- `getAttributes` from the source: pair up the flat attribute list of a
node; a missing or non-list `attributes` field yields an empty map. -/
def getAttributes (node : Node) : Option (List (String × String)) :=
  match assocLookup node Attributes with
  | some (.arr attributesPairs) => getAttributesLoop attributesPairs []
  | _ => some []

/-- `createNodeInsertUpdate` from the source.  Reads `nodeName` and
`nodeValue` via panicking type assertions; a `script` element gets an empty
attribute map; records the element type in `nodeTypeMapping`. -/
def createNodeInsertUpdate (d : DOM) (nodeID parentNodeID prevNodeID : String) (node : Node) :
    Option (DOM × DOMUpdate) :=
  match assocLookup node NodeName with
  | some (.str elementType) =>
    match (if strToLower elementType != "script" then getAttributes node else some []) with
    | none => none
    | some attributes =>
      match assocLookup node NodeValue with
      | some (.str text) =>
        some ({ d with nodeTypeMapping := assocInsert d.nodeTypeMapping nodeID elementType },
              { Action := .insert,
                Node := { NodeID := nodeID, ParentNodeID := parentNodeID,
                          PreviousNodeID := prevNodeID, ElementType := elementType,
                          Attributes := attributes, Text := text } })
      | _ => none
  | _ => none

/-- `createNodeRemovalUpdate` from the source. -/
def createNodeRemovalUpdate (nodeID parentNodeID : String) : DOMUpdate :=
  { Action := .remove,
    Node := { NodeID := nodeID, ParentNodeID := parentNodeID } }

/-- `createNodeAttributeUpdate` from the source. -/
def createNodeAttributeUpdate (nodeID attrName attrValue : String) : DOMUpdate :=
  { Action := .modify,
    Node := { NodeID := nodeID, Attributes := [(attrName, attrValue)] } }

/-- `getBackendNodeID` from the source: translate a protocol node ID to the
stable (backend) node ID through `nodeIDMapping`. -/
def getBackendNodeID (d : DOM) (nodeID : String) : Except String String :=
  match assocLookup d.nodeIDMapping nodeID with
  | none => .error ("node " ++ nodeID ++ " does not have a backend node")
  | some backendNodeID => .ok backendNodeID

/-- `ProcessNodeInsertion` from the source.  The `node` field is read with a
panicking type assertion before any validation; errors are returned before
any map is mutated. -/
def ProcessNodeInsertion (d : DOM) (node : Node) : Option (DOM × Except String DOMUpdate) :=
  match assocLookup node NodeField with
  | some (.obj nodeDetails) =>
    match getNodeIDStr node ParentNodeID with
    | .error e => some (d, .error e)
    | .ok parentNodeID0 =>
      match (if parentNodeID0 != "" then
               match assocLookup d.nodeIDMapping parentNodeID0 with
               | some mapped => Except.ok mapped
               | none => Except.error "parent node does not exists"
             else Except.ok parentNodeID0) with
      | .error e => some (d, .error e)
      | .ok parentNodeID =>
        match getNodeIDStr node PreviousNodeID with
        | .error e => some (d, .error e)
        | .ok prevNodeID0 =>
          match (if prevNodeID0 != "" then
                   match assocLookup d.nodeIDMapping prevNodeID0 with
                   | some mapped => Except.ok mapped
                   | none => Except.error "the provided previous node does not exists"
                 else Except.ok prevNodeID0) with
          | .error e => some (d, .error e)
          | .ok prevNodeID =>
            match getNodeIDStr nodeDetails NodeID with
            | .error e => some (d, .error e)
            | .ok nodeID =>
              match getNodeIDStr nodeDetails BackendNodeID with
              | .error e => some (d, .error e)
              | .ok backendNodeID =>
                match createNodeInsertUpdate d backendNodeID parentNodeID prevNodeID nodeDetails with
                | none => none
                | some (d1, insert) =>
                  some ({ d1 with nodeIDMapping := assocInsert d1.nodeIDMapping nodeID backendNodeID },
                        .ok insert)
  | _ => none

/-- `ProcessNodeRemoval` from the source.  Note that all three `delete` calls
use the protocol node ID as the key, although `backendNodeIDs` and
`nodeTypeMapping` are keyed by the backend node ID. -/
def ProcessNodeRemoval (d : DOM) (node : Node) : DOM × Except String DOMUpdate :=
  match getNodeIDStr node ParentNodeID with
  | .error e => (d, .error e)
  | .ok parentNodeID =>
    match getBackendNodeID d parentNodeID with
    | .error e => (d, .error e)
    | .ok parentBackendID =>
      match getNodeIDStr node NodeID with
      | .error e => (d, .error e)
      | .ok nodeID =>
        match getBackendNodeID d nodeID with
        | .error e => (d, .error e)
        | .ok backendNodeID =>
          ({ nodeIDMapping := assocErase d.nodeIDMapping nodeID,
             backendNodeIDs := assocErase d.backendNodeIDs nodeID,
             nodeTypeMapping := assocErase d.nodeTypeMapping nodeID },
           .ok (createNodeRemovalUpdate backendNodeID parentBackendID))

/-- `ProcessNodeAttributeModification` from the source.  `name` and `value`
are read with panicking type assertions. -/
def ProcessNodeAttributeModification (d : DOM) (node : Node) :
    Option (DOM × Except String DOMUpdate) :=
  match getNodeIDStr node NodeID with
  | .error e => some (d, .error e)
  | .ok nodeID =>
    match getBackendNodeID d nodeID with
    | .error e => some (d, .error e)
    | .ok backendNodeID =>
      match assocLookup node Name with
      | some (.str attrName) =>
        match assocLookup node Value with
        | some (.str attrValue) =>
          some (d, .ok (createNodeAttributeUpdate backendNodeID attrName attrValue))
        | _ => none
      | _ => none

mutual

/-- Structural size of a JSON value (the derived `sizeOf` has no executable
code, so the recursion bound of the walk uses this computable measure). -/
def jsonSize : JsonValue → Nat
  | .null => 1
  | .bool _ => 1
  | .num _ => 1
  | .str _ => 1
  | .arr elems => 1 + jsonSizeList elems
  | .obj fields => 1 + jsonSizeFields fields

/-- Structural size of a JSON array body. -/
def jsonSizeList : List JsonValue → Nat
  | [] => 1
  | v :: rest => 1 + jsonSize v + jsonSizeList rest

/-- Structural size of a JSON object body. -/
def jsonSizeFields : List (String × JsonValue) → Nat
  | [] => 1
  | (_, v) :: rest => 1 + jsonSize v + jsonSizeFields rest

end

/-- The `for _, c := range children` loop of `generateInitialDOMHelper`,
abstracted over the recursive walk of a single child: walk each child with
the running previous-sibling ID, returning on the first error (with the
updates appended so far, as the Go code appends through a pointer) and
panicking (`none`) if a child is not an object. -/
def walkChildrenWith
    (walk : DOM → Node → String → String → Option (DOM × List DOMUpdate × Except String String)) :
    DOM → List JsonValue → String → String →
      Option (DOM × List DOMUpdate × Except String String)
  | d, [], _, prevNodeID => some (d, [], .ok prevNodeID)
  | d, c :: rest, parentNodeID, prevNodeID =>
    match c with
    | .obj childNode =>
      match walk d childNode parentNodeID prevNodeID with
      | none => none
      | some (d1, ups1, .error e) => some (d1, ups1, .error e)
      | some (d1, ups1, .ok newPrev) =>
        match walkChildrenWith walk d1 rest parentNodeID newPrev with
        | none => none
        | some (d2, ups2, r) => some (d2, ups1 ++ ups2, r)
    | _ => none

/-- `generateInitialDOMHelper` from the source, with an explicit recursion
fuel (an embedding device: the Go recursion is over the finite node tree;
`generateInitialDOMHelperFuel_congr` shows any fuel of at least `jsonSizeFields
curNode` gives the same result, so the exhaustion case is unreachable for the
bound used by `generateInitialDOMHelper`).  Depth-first walk of a protocol
node tree: emit an insert for a node whose backend ID is not yet known and
whose parent's recorded kind is not `script`; walk the `children` list; and
finally record the protocol-to-stable mapping. -/
def generateInitialDOMHelperFuel :
    Nat → DOM → Node → String → String → Option (DOM × List DOMUpdate × Except String String)
  | 0, _, _, _, _ => none
  | fuel + 1, d, curNode, parentNodeID, prevNodeID =>
    match getNodeIDStr curNode BackendNodeID with
    | .error e => some (d, [], .error e)
    | .ok backendNodeID =>
      match getNodeIDStr curNode NodeID with
      | .error e => some (d, [], .error e)
      | .ok nodeID =>
        match (if assocMem d.backendNodeIDs backendNodeID then
                 some (d, ([] : List DOMUpdate))
               else
                 let d1 : DOM :=
                   { d with backendNodeIDs := assocInsert d.backendNodeIDs backendNodeID true }
                 if strToLower (assocFind d1.nodeTypeMapping parentNodeID) != "script" then
                   match createNodeInsertUpdate d1 backendNodeID parentNodeID prevNodeID curNode with
                   | none => none
                   | some (d2, insert) => some (d2, [insert])
                 else some (d1, [])) with
        | none => none
        | some (d1, ups1) =>
          match assocLookup curNode Children with
          | none =>
            some ({ d1 with nodeIDMapping := assocInsert d1.nodeIDMapping nodeID backendNodeID },
                  ups1, .ok backendNodeID)
          | some .null =>
            some ({ d1 with nodeIDMapping := assocInsert d1.nodeIDMapping nodeID backendNodeID },
                  ups1, .ok backendNodeID)
          | some (.arr children) =>
            match walkChildrenWith (generateInitialDOMHelperFuel fuel) d1 children backendNodeID "" with
            | none => none
            | some (d2, ups2, .error e) => some (d2, ups1 ++ ups2, .error e)
            | some (d2, ups2, .ok _) =>
              some ({ d2 with nodeIDMapping := assocInsert d2.nodeIDMapping nodeID backendNodeID },
                    ups1 ++ ups2, .ok backendNodeID)
          | some _ => none

/-- `generateInitialDOMHelper` from the source: the fuel bound
`jsonSizeFields curNode` dominates the tree depth (see
`generateInitialDOMHelperFuel_congr`). -/
def generateInitialDOMHelper (d : DOM) (curNode : Node) (parentNodeID prevNodeID : String) :
    Option (DOM × List DOMUpdate × Except String String) :=
  generateInitialDOMHelperFuel (jsonSizeFields curNode) d curNode parentNodeID prevNodeID

/-- `GenerateInitialDOM` from the source: run the helper from the root with
an empty parent and previous-sibling; on error the updates are discarded but
the mutated model state remains. -/
def GenerateInitialDOM (d : DOM) (rootNode : Node) :
    Option (DOM × Except String (List DOMUpdate)) :=
  match generateInitialDOMHelper d rootNode "" "" with
  | none => none
  | some (d1, _, .error e) => some (d1, .error e)
  | some (d1, ups, .ok _) => some (d1, .ok ups)

deriving instance DecidableEq for Except

/-- The `for _, nodeInterface := range nodes` loop of `ProcessSetChildNodes`:
each top-level child is walked with the recursive helper; the source ignores
both of the helper's return values (so a walk error is swallowed and the
partial updates are kept), and the previous-sibling ID for the next iteration
is re-read from the child with a swallowed error defaulting to `""`. -/
def setChildNodesLoop : DOM → List JsonValue → String → String → Option (DOM × List DOMUpdate)
  | d, [], _, _ => some (d, [])
  | d, n :: rest, parentBackendID, prevNodeID =>
    match n with
    | .obj curNode =>
      match generateInitialDOMHelper d curNode parentBackendID prevNodeID with
      | none => none
      | some (d1, nodeSubTreeUpdates, _) =>
        match setChildNodesLoop d1 rest parentBackendID
            (match getNodeIDStr curNode BackendNodeID with
             | .ok s => s
             | .error _ => "") with
        | none => none
        | some (d2, ups2) => some (d2, nodeSubTreeUpdates ++ ups2)
    | _ => none

/-- `ProcessSetChildNodes` from the source: translate the parent, then walk
each child of the payload's `nodes` list. -/
def ProcessSetChildNodes (d : DOM) (node : Node) : Option (DOM × Except String (List DOMUpdate)) :=
  match getNodeIDStr node ParentID with
  | .error e => some (d, .error e)
  | .ok parentNodeID =>
    match getBackendNodeID d parentNodeID with
    | .error e => some (d, .error e)
    | .ok parentBackendID =>
      match assocLookup node Nodes with
      | some (.arr nodes) =>
        match setChildNodesLoop d nodes parentBackendID "" with
        | none => none
        | some (d2, result) => some (d2, .ok result)
      | _ => none

/-- One DOM-Model operation of the streaming handler's event loop. -/
inductive Op : Type where
  | genInitial (root : Node) : Op
  | setChildNodes (payload : Node) : Op
  | nodeInserted (payload : Node) : Op
  | nodeRemoved (payload : Node) : Op
  | attrModified (payload : Node) : Op

/-- Whether an operation is one of the two tree-walking operations. -/
def Op.isWalk : Op → Bool
  | .genInitial _ => true
  | .setChildNodes _ => true
  | _ => false

/-- Run one operation, returning the new model state and the updates the
streaming handler sends for it (none are sent when the operation reports an
error); `none` embeds a Go panic. -/
def runOp (d : DOM) : Op → Option (DOM × List DOMUpdate)
  | .genInitial root =>
    match GenerateInitialDOM d root with
    | none => none
    | some (d1, .ok ups) => some (d1, ups)
    | some (d1, .error _) => some (d1, [])
  | .setChildNodes payload =>
    match ProcessSetChildNodes d payload with
    | none => none
    | some (d1, .ok ups) => some (d1, ups)
    | some (d1, .error _) => some (d1, [])
  | .nodeInserted payload =>
    match ProcessNodeInsertion d payload with
    | none => none
    | some (d1, .ok u) => some (d1, [u])
    | some (d1, .error _) => some (d1, [])
  | .nodeRemoved payload =>
    match ProcessNodeRemoval d payload with
    | (d1, .ok u) => some (d1, [u])
    | (d1, .error _) => some (d1, [])
  | .attrModified payload =>
    match ProcessNodeAttributeModification d payload with
    | none => none
    | some (d1, .ok u) => some (d1, [u])
    | some (d1, .error _) => some (d1, [])

/-- Run a sequence of operations, concatenating the emitted update stream. -/
def runOps : DOM → List Op → Option (DOM × List DOMUpdate)
  | d, [] => some (d, [])
  | d, op :: rest =>
    match runOp d op with
    | none => none
    | some (d1, ups1) =>
      match runOps d1 rest with
      | none => none
      | some (d2, ups2) => some (d2, ups1 ++ ups2)

/-- Field-name constant `LocalName = "localName"`. -/
def LocalName : String := "localName"

/-- The S4 scenario tree (mirrors the `TestGenerateInitialDOM` "General"
fixture): root `a` (IDs 1) with two leaf children `b` (IDs 2) and `c`
(IDs 3), each carrying one attribute pair. -/
def s4Tree : Node :=
  [(NodeID, .num 1), (BackendNodeID, .num 1), (NodeValue, .str "a"),
   (LocalName, .str "a"), (NodeName, .str "a"),
   (Attributes, .arr [.str "foo00", .str "bar00"]),
   (Children, .arr
     [.obj [(NodeID, .num 2), (BackendNodeID, .num 2), (NodeValue, .str "b"),
            (LocalName, .str "b"), (NodeName, .str "b"),
            (Attributes, .arr [.str "foo10", .str "bar10"]),
            (Children, .arr [])],
      .obj [(NodeID, .num 3), (BackendNodeID, .num 3), (NodeValue, .str "c"),
            (LocalName, .str "c"), (NodeName, .str "c"),
            (Attributes, .arr [.str "foo20", .str "bar20"]),
            (Children, .arr [])]])]

/-- A single `DIV` node (IDs 1) carrying an `onclick` event-handler attribute. -/
def onclickTree : Node :=
  [(NodeID, .num 1), (BackendNodeID, .num 1), (NodeName, .str "DIV"),
   (NodeValue, .str ""),
   (Attributes, .arr [.str "onclick", .str "alert(1)"])]

/-- Root `HTML` (IDs 1) with one `SCRIPT` child (IDs 2). -/
def scriptChildTree : Node :=
  [(NodeID, .num 1), (BackendNodeID, .num 1), (NodeName, .str "HTML"),
   (NodeValue, .str ""),
   (Children, .arr
     [.obj [(NodeID, .num 2), (BackendNodeID, .num 2), (NodeName, .str "SCRIPT"),
            (NodeValue, .str "")]])]

/-- A `childNodeInserted` payload inserting a `DIV` (IDs 3) under protocol
parent 2 with no previous sibling. -/
def insertUnderTwoPayload : Node :=
  [(ParentNodeID, .num 2), (PreviousNodeID, .num 0),
   (NodeField, .obj [(NodeID, .num 3), (BackendNodeID, .num 3),
                     (NodeName, .str "DIV"), (NodeValue, .str "")])]

/-- A single `DIV` root (IDs 1). -/
def divRootTree : Node :=
  [(NodeID, .num 1), (BackendNodeID, .num 1), (NodeName, .str "DIV"),
   (NodeValue, .str "")]

/-- A `childNodeInserted` payload inserting a `DIV` (IDs 3) under protocol
parent 1 with no previous sibling. -/
def insertUnderOnePayload : Node :=
  [(ParentNodeID, .num 1), (PreviousNodeID, .num 0),
   (NodeField, .obj [(NodeID, .num 3), (BackendNodeID, .num 3),
                     (NodeName, .str "DIV"), (NodeValue, .str "")])]

/-- Root `HTML` (IDs 1) with one `DIV` child whose protocol ID (5) differs
from its backend ID (7). -/
def removalTree : Node :=
  [(NodeID, .num 1), (BackendNodeID, .num 1), (NodeName, .str "HTML"),
   (NodeValue, .str ""),
   (Children, .arr
     [.obj [(NodeID, .num 5), (BackendNodeID, .num 7), (NodeName, .str "DIV"),
            (NodeValue, .str "")]])]

/-- A `childNodeRemoved` payload for protocol node 5 under protocol parent 1. -/
def removalPayload : Node :=
  [(NodeID, .num 5), (ParentNodeID, .num 1)]

/-- A `chrome.Instance` as far as the manager is concerned: the manager
stores only a reference and never inspects it, so the embedding keeps just
the debugging port used at construction. -/
structure Instance where
  port : Int

deriving DecidableEq

/-- The `chrome.InstanceManager` struct (its bounded ready-queue channel and
mutex are concurrency devices with no bearing on the map contract modelled
here). -/
structure InstanceManager where
  nextInstanceID : Int
  instances : List (Int × Instance)
  urls : List (Int × String)
  useFullChrome : Bool

deriving DecidableEq

/-- `RemoveInstance` from the source: error when the ID is unknown,
otherwise delete both map entries.  The instance itself is never touched. -/
def RemoveInstance (im : InstanceManager) (instanceID : Int) :
    InstanceManager × Option String :=
  match assocLookup im.instances instanceID with
  | none => (im, some "instance with this ID does not exist")
  | some _ =>
    ({ im with instances := assocErase im.instances instanceID,
               urls := assocErase im.urls instanceID },
     none)

/-- A manager holding one pooled instance with ID 0. -/
def exampleManager : InstanceManager :=
  { nextInstanceID := 1, instances := [(0, { port := 9222 })],
    urls := [(0, "http://example.com/")], useFullChrome := false }

/-- `strings.HasPrefix` on the character lists of the strings (the core
`String.isPrefixOf` does not reduce in the kernel). -/
def hasPrefixStr (p s : String) : Bool :=
  p.data.isPrefixOf s.data

/-- `handlerutils.IsEventHandler` from the source: an attribute key is an
event handler iff it begins with `on`. -/
def IsEventHandler (s : String) : Bool :=
  hasPrefixStr "on" s

/-- Flatten a list of key-value string pairs into the protocol's flat
`[k0, v0, k1, v1, ...]` attribute encoding. -/
def interleavePairs : List (String × String) → List JsonValue
  | [] => []
  | (k, v) :: rest => .str k :: .str v :: interleavePairs rest

/-- A required ID field is missing or non-numeric (the error condition of
`getNodeIDStr`, phrased on the payload as the specification does). -/
def missingOrNonNumeric (node : Node) (field : String) : Bool :=
  match assocLookup node field with
  | some (.num _) => false
  | _ => true

/-- A reference ID field holds a non-zero number whose converted string is
absent from the protocol-to-stable mapping. -/
def nonZeroAndUnmapped (d : DOM) (node : Node) (field : String) : Bool :=
  match assocLookup node field with
  | some (.num q) =>
    if q = 0 then false
    else (assocLookup d.nodeIDMapping (toString (intTruncOfRat q))).isNone
  | _ => false

/-- Invariant of one walk segment from state `d` to state `d'` emitting
`ups`: known-stable only grows; the recorded kind of an already-known stable
ID is untouched; every emitted update is an insert whose stable ID was
unknown before and is known after; the emitted stable IDs are pairwise
distinct; no update is emitted under a parent already recorded as `script`;
and script inserts carry no attributes. -/
def WalkInv (d d' : DOM) (ups : List DOMUpdate) : Prop :=
  (∀ k, assocMem d.backendNodeIDs k = true → assocMem d'.backendNodeIDs k = true)
  ∧ (∀ k, assocMem d.backendNodeIDs k = true →
      assocLookup d'.nodeTypeMapping k = assocLookup d.nodeTypeMapping k)
  ∧ (∀ u ∈ ups, u.Action = DomAction.insert)
  ∧ (∀ u ∈ ups, assocMem d.backendNodeIDs u.Node.NodeID = false
      ∧ assocMem d'.backendNodeIDs u.Node.NodeID = true)
  ∧ (ups.map (fun u => u.Node.NodeID)).Nodup
  ∧ (∀ pid, assocMem d.backendNodeIDs pid = true →
      strToLower (assocFind d.nodeTypeMapping pid) = "script" →
      ∀ u ∈ ups, u.Node.ParentNodeID ≠ pid)
  ∧ (∀ u ∈ ups, strToLower u.Node.ElementType = "script" → u.Node.Attributes = [])

/-- A single `P` root (IDs 9). -/
def pTree : Node :=
  [(NodeID, .num 9), (BackendNodeID, .num 9), (NodeName, .str "P"),
   (NodeValue, .str "")]

/-- A single `SCRIPT` root (IDs 1) carrying an `onclick` attribute pair. -/
def scriptOnlyTree : Node :=
  [(NodeID, .num 1), (BackendNodeID, .num 1), (NodeName, .str "SCRIPT"),
   (NodeValue, .str ""),
   (Attributes, .arr [.str "onclick", .str "x"])]

/-- `html.Attribute` of the tokenizer library (the `Namespace` field is
never read by the sanitizer and is omitted). -/
structure HtmlAttribute where
  Key : String
  Val : String

deriving DecidableEq

/-- `html.TokenType` of the tokenizer library. -/
inductive TokenType : Type where
  | ErrorToken : TokenType
  | TextToken : TokenType
  | StartTagToken : TokenType
  | EndTagToken : TokenType
  | SelfClosingTagToken : TokenType
  | CommentToken : TokenType
  | DoctypeToken : TokenType

deriving DecidableEq

/-- `html.Token` of the tokenizer library (`Type` is a reserved word in
Lean, so the field is named `tokType`; `DataAtom` is kept as the lowercase
tag name, `""` when the tag is not an interned atom of interest). -/
structure Token where
  tokType : TokenType
  Data : String
  DataAtom : String
  Attr : List HtmlAttribute

deriving DecidableEq

/-- Modelled from the spec: HTML escaping of text as the tokenizer library
applies it when rendering a text token (the five significant characters). -/
def escapeChar (c : Char) : List Char :=
  if c = '&' then "&amp;".data
  else if c = '\'' then "&#39;".data
  else if c = '<' then "&lt;".data
  else if c = '>' then "&gt;".data
  else if c = '"' then "&#34;".data
  else [c]

/-- Escape a whole string character by character. -/
def escapeString (s : String) : String :=
  String.mk (s.data.foldr (fun c acc => escapeChar c ++ acc) [])

/-- Modelled from the spec: HTML entity unescaping (`html.UnescapeString`)
restricted to the entities the escaper emits plus the common named forms;
unrecognized ampersand sequences are left intact, as the library does. -/
def unescapeChars : List Char → List Char
  | [] => []
  | '&' :: 'a' :: 'm' :: 'p' :: ';' :: rest => '&' :: unescapeChars rest
  | '&' :: 'l' :: 't' :: ';' :: rest => '<' :: unescapeChars rest
  | '&' :: 'g' :: 't' :: ';' :: rest => '>' :: unescapeChars rest
  | '&' :: 'q' :: 'u' :: 'o' :: 't' :: ';' :: rest => '"' :: unescapeChars rest
  | '&' :: '#' :: '3' :: '9' :: ';' :: rest => '\'' :: unescapeChars rest
  | '&' :: '#' :: '3' :: '4' :: ';' :: rest => '"' :: unescapeChars rest
  | c :: rest => c :: unescapeChars rest

/-- Unescape a whole string. -/
def unescapeString (s : String) : String :=
  String.mk (unescapeChars s.data)

/-- Modelled from the spec: rendering of a token back to HTML text, as the
tokenizer library's token-to-string conversion does (text is escaped,
attribute values are escaped and quoted). -/
def tokenString (t : Token) : String :=
  match t.tokType with
  | .ErrorToken => ""
  | .TextToken => escapeString t.Data
  | .StartTagToken =>
    "<" ++ t.Data
        ++ (t.Attr.foldr (fun a acc => " " ++ a.Key ++ "=\"" ++ escapeString a.Val ++ "\"" ++ acc) "")
        ++ ">"
  | .EndTagToken => "</" ++ t.Data ++ ">"
  | .SelfClosingTagToken =>
    "<" ++ t.Data
        ++ (t.Attr.foldr (fun a acc => " " ++ a.Key ++ "=\"" ++ escapeString a.Val ++ "\"" ++ acc) "")
        ++ "/>"
  | .CommentToken => "<!--" ++ t.Data ++ "-->"
  | .DoctypeToken => "<!DOCTYPE " ++ t.Data ++ ">"

/-- The token loop of `removeScriptTags` from the source, over an already
tokenized stream.  Each output pair is an emitted token (with event-handler
attributes removed, as the source rewrites `tk.Attr`) together with the flag
saying whether its rendered string is passed through `UnescapeString`
(leading text, and text directly after a `<style>` start tag). -/
def removeScriptTagsLoop : Bool → Bool → Bool → List Token → List (Token × Bool)
  | _, _, _, [] => []
  | firstToken, lastTokenWasScript, lastTokenWasStyle, tk0 :: rest =>
    let tk : Token := { tk0 with Attr := tk0.Attr.filter (fun a => !(IsEventHandler a.Key)) }
    if firstToken && (tk.tokType == TokenType.TextToken) then
      (tk, true) :: removeScriptTagsLoop firstToken lastTokenWasScript lastTokenWasStyle rest
    else
      let unescapeThis := lastTokenWasStyle && (tk.tokType == TokenType.TextToken)
      if lastTokenWasScript && (tk.tokType == TokenType.TextToken) then
        removeScriptTagsLoop false lastTokenWasScript lastTokenWasStyle rest
      else
        let lastScript := (tk.tokType == TokenType.StartTagToken) && (tk.DataAtom == "script")
        let lastStyle := (tk.tokType == TokenType.StartTagToken) && (tk.DataAtom == "style")
        if tk.DataAtom == "script" then
          removeScriptTagsLoop false lastScript lastStyle rest
        else
          (tk, unescapeThis) :: removeScriptTagsLoop false lastScript lastStyle rest

/-- Render one emitted token, unescaping when the loop says so. -/
def renderPiece (p : Token × Bool) : String :=
  if p.2 then unescapeString (tokenString p.1) else tokenString p.1

/-- `removeScriptTags` from the source, factored over a token stream: the
concatenation of the rendered kept tokens. -/
def removeScriptTagsTokens (toks : List Token) : String :=
  ((removeScriptTagsLoop true false false toks).map renderPiece).foldl (fun a b => a ++ b) ""

/-- Tag-name characters accepted by the simplified tokenizer model. -/
def isNameChar (c : Char) : Bool :=
  c.isAlpha || c.isDigit

/-- Read a tag name up to the closing `>`; `none` outside the modelled
fragment (attributes, whitespace, unterminated tags). -/
def parseTagName : List Char → Option (List Char × List Char)
  | [] => none
  | c :: rest =>
    if c = '>' then some ([], rest)
    else if isNameChar c then
      match parseTagName rest with
      | some (name, rest') => some (c :: name, rest')
      | none => none
    else none

/-- Split a character list at the first occurrence of `target`, dropping it;
`none` when absent. -/
def splitAtSeq (target : List Char) : List Char → Option (List Char × List Char)
  | [] => none
  | c :: rest =>
    if target.isPrefixOf (c :: rest) then some ([], (c :: rest).drop target.length)
    else
      match splitAtSeq target rest with
      | some (before, after) => some (c :: before, after)
      | none => none

/-- Take ordinary text up to the next `<`. -/
def takeText : List Char → List Char × List Char
  | [] => ([], [])
  | c :: rest =>
    if c = '<' then ([], c :: rest)
    else
      match takeText rest with
      | (t, r) => (c :: t, r)

/-- Entity unescaping for text data, strict: `none` on an ampersand sequence
outside the modelled entity set (the real tokenizer handles it; such inputs
are outside the modelled fragment). -/
def unescapeStrictChars : List Char → Option (List Char)
  | [] => some []
  | '&' :: 'a' :: 'm' :: 'p' :: ';' :: rest =>
    match unescapeStrictChars rest with
    | some l => some ('&' :: l)
    | none => none
  | '&' :: 'l' :: 't' :: ';' :: rest =>
    match unescapeStrictChars rest with
    | some l => some ('<' :: l)
    | none => none
  | '&' :: 'g' :: 't' :: ';' :: rest =>
    match unescapeStrictChars rest with
    | some l => some ('>' :: l)
    | none => none
  | '&' :: 'q' :: 'u' :: 'o' :: 't' :: ';' :: rest =>
    match unescapeStrictChars rest with
    | some l => some ('"' :: l)
    | none => none
  | '&' :: '#' :: '3' :: '9' :: ';' :: rest =>
    match unescapeStrictChars rest with
    | some l => some ('\'' :: l)
    | none => none
  | '&' :: '#' :: '3' :: '4' :: ';' :: rest =>
    match unescapeStrictChars rest with
    | some l => some ('"' :: l)
    | none => none
  | '&' :: _ => none
  | c :: rest =>
    match unescapeStrictChars rest with
    | some l => some (c :: l)
    | none => none

/-- Modelled from the spec: the external streaming HTML tokenizer used by
`removeScriptTags` (package `golang.org/x/net/html`, an external
collaborator of this repository).  The model covers the fragment needed
here: plain text with the common entities, attribute-free start and end
tags, and the raw-text content of `script` and `style` elements (which runs
to the matching end tag and is not entity-decoded).  Inputs outside the
fragment give `none` (a tokenizer the caller treats as failing).  The fuel
only bounds the recursion; one character is consumed per step, so
`length + 1` never exhausts. -/
def tokenizeGo : Nat → List Char → Option (List Token)
  | 0, _ => none
  | _ + 1, [] => some []
  | fuel + 1, '<' :: '/' :: rest =>
    match parseTagName rest with
    | some (name, rest') =>
      match tokenizeGo fuel rest' with
      | some toks =>
        some ({ tokType := .EndTagToken, Data := strToLower (String.mk name),
                DataAtom := if strToLower (String.mk name) = "script"
                    ∨ strToLower (String.mk name) = "style" then
                  strToLower (String.mk name) else "",
                Attr := [] } :: toks)
      | none => none
    | none => none
  | fuel + 1, '<' :: c :: rest =>
    if c.isAlpha then
      match parseTagName (c :: rest) with
      | some (name, rest') =>
        if strToLower (String.mk name) = "script" ∨ strToLower (String.mk name) = "style" then
          match splitAtSeq ("</" ++ strToLower (String.mk name) ++ ">").data rest' with
          | some (raw, rest2) =>
            match tokenizeGo fuel rest2 with
            | some toks =>
              some ({ tokType := .StartTagToken, Data := strToLower (String.mk name),
                      DataAtom := strToLower (String.mk name), Attr := [] } ::
                    { tokType := .TextToken, Data := String.mk raw,
                      DataAtom := "", Attr := [] } ::
                    { tokType := .EndTagToken, Data := strToLower (String.mk name),
                      DataAtom := strToLower (String.mk name), Attr := [] } :: toks)
            | none => none
          | none => none
        else
          match tokenizeGo fuel rest' with
          | some toks =>
            some ({ tokType := .StartTagToken, Data := strToLower (String.mk name),
                    DataAtom := "", Attr := [] } :: toks)
          | none => none
      | none => none
    else none
  | fuel + 1, cs =>
    match takeText cs with
    | (raw, rest') =>
      if raw = [] then none
      else
        match unescapeStrictChars raw with
        | some txt =>
          match tokenizeGo fuel rest' with
          | some toks =>
            some ({ tokType := .TextToken, Data := String.mk txt,
                    DataAtom := "", Attr := [] } :: toks)
          | none => none
        | none => none

/-- Tokenize a string with sufficient fuel. -/
def tokenizeModel (s : String) : Option (List Token) :=
  tokenizeGo (s.data.length + 1) s.data

/-- `removeScriptTags` from the source: tokenize, then run the filter loop;
`none` when the tokenizer fails. -/
def removeScriptTags (dom : String) : Option String :=
  match tokenizeModel dom with
  | some toks => some (removeScriptTagsTokens toks)
  | none => none

/-- A value found by `assocLookup` is smaller than the object holding it. -/
theorem jsonSize_lt_of_assocLookup :
    ∀ (l : List (String × JsonValue)) (k : String) (v : JsonValue),
      assocLookup l k = some v → jsonSize v < jsonSizeFields l
  | [], _, _, h => by simp [assocLookup] at h
  | (k', v') :: rest, k, v, h => by
    by_cases hk : k' == k
    · simp [assocLookup, hk] at h
      subst h
      simp [jsonSizeFields]
      omega
    · simp [assocLookup, hk] at h
      have := jsonSize_lt_of_assocLookup rest k v h
      simp [jsonSizeFields]
      omega

/-- A member of a JSON array is smaller than the array body. -/
theorem jsonSize_lt_of_mem_list :
    ∀ (l : List JsonValue) (x : JsonValue), x ∈ l → jsonSize x < jsonSizeList l
  | [], _, h => by simp at h
  | y :: rest, x, h => by
    rcases List.mem_cons.mp h with h | h
    · subst h
      simp [jsonSizeList]
      omega
    · have := jsonSize_lt_of_mem_list rest x h
      simp [jsonSizeList]
      omega

/-- Every node (JSON object body) has positive size. -/
theorem jsonSizeFields_pos : ∀ (l : List (String × JsonValue)), 1 ≤ jsonSizeFields l
  | [] => by simp [jsonSizeFields]
  | (_, v) :: rest => by
    simp [jsonSizeFields]
    omega

/-- The loop of `walkChildrenWith` only depends on the walk function at
object elements of the list. -/
theorem walkChildrenWith_congr
    (walk1 walk2 : DOM → Node → String → String → Option (DOM × List DOMUpdate × Except String String)) :
    ∀ (children : List JsonValue) (d : DOM) (parentNodeID prevNodeID : String),
      (∀ (d' : DOM) (cn : Node) (p v : String), JsonValue.obj cn ∈ children →
        walk1 d' cn p v = walk2 d' cn p v) →
      walkChildrenWith walk1 d children parentNodeID prevNodeID =
        walkChildrenWith walk2 d children parentNodeID prevNodeID
  | [], _, _, _, _ => rfl
  | c :: rest, d, parentNodeID, prevNodeID, h => by
    have hrest : ∀ (d' : DOM) (cn : Node) (p v : String), JsonValue.obj cn ∈ rest →
        walk1 d' cn p v = walk2 d' cn p v := by
      intro d' cn p v hm
      exact h d' cn p v (List.mem_cons_of_mem _ hm)
    cases c with
    | obj childNode =>
      rw [walkChildrenWith, walkChildrenWith,
          h d childNode parentNodeID prevNodeID (List.mem_cons_self _ _)]
      cases walk2 d childNode parentNodeID prevNodeID with
      | none => rfl
      | some res =>
        obtain ⟨d1, ups1, r1⟩ := res
        cases r1 with
        | error e => rfl
        | ok newPrev =>
          exact congrArg
            (fun res => match res with
              | none => none
              | some (d2, ups2, r) => some (d2, ups1 ++ ups2, r))
            (walkChildrenWith_congr walk1 walk2 rest d1 parentNodeID newPrev hrest)
    | null => rfl
    | bool b => rfl
    | num q => rfl
    | str s => rfl
    | arr elems => rfl

/-- Any two fuels at least `jsonSizeFields curNode` give the same walk
result: the fuel of the embedding is irrelevant beyond that bound, so the
exhaustion branch is unreachable in `generateInitialDOMHelper`. -/
theorem generateInitialDOMHelperFuel_congr :
    ∀ (fuel1 fuel2 : Nat) (d : DOM) (curNode : Node) (parentNodeID prevNodeID : String),
      jsonSizeFields curNode ≤ fuel1 → jsonSizeFields curNode ≤ fuel2 →
      generateInitialDOMHelperFuel fuel1 d curNode parentNodeID prevNodeID =
        generateInitialDOMHelperFuel fuel2 d curNode parentNodeID prevNodeID := by
  intro fuel1
  induction fuel1 using Nat.strong_induction_on with
  | _ fuel1 ih =>
    intro fuel2 d curNode parentNodeID prevNodeID h1 h2
    have hpos : 1 ≤ jsonSizeFields curNode := jsonSizeFields_pos curNode
    obtain ⟨f1, rfl⟩ : ∃ f1, fuel1 = f1 + 1 := ⟨fuel1 - 1, by omega⟩
    obtain ⟨f2, rfl⟩ : ∃ f2, fuel2 = f2 + 1 := ⟨fuel2 - 1, by omega⟩
    rw [generateInitialDOMHelperFuel, generateInitialDOMHelperFuel]
    rcases hch : assocLookup curNode Children with _ | ch
    · rfl
    · have hchsz := jsonSize_lt_of_assocLookup curNode Children ch hch
      cases ch with
      | null => rfl
      | bool b => rfl
      | num q => rfl
      | str s => rfl
      | obj fields => rfl
      | arr children =>
        have hcsz : jsonSizeList children < jsonSizeFields curNode := by
          simp [jsonSize] at hchsz
          omega
        have hwc : ∀ (dA : DOM) (pA vA : String),
            walkChildrenWith (generateInitialDOMHelperFuel f1) dA children pA vA =
              walkChildrenWith (generateInitialDOMHelperFuel f2) dA children pA vA := by
          intro dA pA vA
          apply walkChildrenWith_congr
          intro d' cn p v hm
          have hmem := jsonSize_lt_of_mem_list children (JsonValue.obj cn) hm
          have hcn : jsonSizeFields cn < jsonSizeList children := by
            simp [jsonSize] at hmem
            omega
          by_cases hf : f1 = f2
          · rw [hf]
          · exact ih f1 (by omega) f2 d' cn p v (by omega) (by omega)
        simp only [hwc]

/-- Claim C7: on the S4 tree, `GenerateInitialDOM` emits exactly three
insert updates in depth-first order; the previous-sibling stable ID of the
second child `c` equals the stable ID of the first child `b` (`"2"`). -/
theorem generateInitialDOM_s4_scenario :
    GenerateInitialDOM NewDOMModel s4Tree =
      some ({ nodeIDMapping := [("2", "2"), ("3", "3"), ("1", "1")],
              backendNodeIDs := [("1", true), ("2", true), ("3", true)],
              nodeTypeMapping := [("1", "a"), ("2", "b"), ("3", "c")] },
            .ok [{ Action := .insert,
                   Node := { NodeID := "1", ParentNodeID := "", PreviousNodeID := "",
                             ElementType := "a", Attributes := [("foo00", "bar00")],
                             Text := "a" } },
                 { Action := .insert,
                   Node := { NodeID := "2", ParentNodeID := "1", PreviousNodeID := "",
                             ElementType := "b", Attributes := [("foo10", "bar10")],
                             Text := "b" } },
                 { Action := .insert,
                   Node := { NodeID := "3", ParentNodeID := "1", PreviousNodeID := "2",
                             ElementType := "c", Attributes := [("foo20", "bar20")],
                             Text := "c" } }]) := by
  decide

/-- Claim C5 (code bug): removing the `DIV` child whose protocol ID 5
differs from its backend ID 7 emits the correct remove update, but purges
only `nodeIDMapping`; the `backendNodeIDs` and `nodeTypeMapping` entries of
the removed node survive because the source deletes all three maps under the
protocol node ID even though the last two are keyed by the backend node ID. -/
theorem processNodeRemoval_leaves_stale_stable_entries :
    GenerateInitialDOM NewDOMModel removalTree =
      some ({ nodeIDMapping := [("5", "7"), ("1", "1")],
              backendNodeIDs := [("1", true), ("7", true)],
              nodeTypeMapping := [("1", "HTML"), ("7", "DIV")] },
            .ok [{ Action := .insert,
                   Node := { NodeID := "1", ParentNodeID := "", PreviousNodeID := "",
                             ElementType := "HTML", Attributes := [], Text := "" } },
                 { Action := .insert,
                   Node := { NodeID := "7", ParentNodeID := "1", PreviousNodeID := "",
                             ElementType := "DIV", Attributes := [], Text := "" } }])
    ∧ ProcessNodeRemoval
        { nodeIDMapping := [("5", "7"), ("1", "1")],
          backendNodeIDs := [("1", true), ("7", true)],
          nodeTypeMapping := [("1", "HTML"), ("7", "DIV")] }
        removalPayload =
      ({ nodeIDMapping := [("1", "1")],
         backendNodeIDs := [("1", true), ("7", true)],
         nodeTypeMapping := [("1", "HTML"), ("7", "DIV")] },
       .ok { Action := .remove,
             Node := { NodeID := "7", ParentNodeID := "1" } })
    ∧ assocMem ({ nodeIDMapping := [("1", "1")],
                  backendNodeIDs := [("1", true), ("7", true)],
                  nodeTypeMapping := [("1", "HTML"), ("7", "DIV")] } : DOM).backendNodeIDs "7" = true
    ∧ assocLookup ({ nodeIDMapping := [("1", "1")],
                     backendNodeIDs := [("1", true), ("7", true)],
                     nodeTypeMapping := [("1", "HTML"), ("7", "DIV")] } : DOM).nodeTypeMapping "7" =
        some "DIV" := by
  refine ⟨by decide, by decide, by decide, by decide⟩

/-- Claim C1 (counterexample): `GenerateInitialDOM` emits an insert whose
attribute map carries the key `onclick`, which begins with `on`: the DOM
Model does not filter event-handler attributes. -/
theorem insert_update_carries_on_attribute :
    GenerateInitialDOM NewDOMModel onclickTree =
      some ({ nodeIDMapping := [("1", "1")], backendNodeIDs := [("1", true)],
              nodeTypeMapping := [("1", "DIV")] },
            .ok [{ Action := .insert,
                   Node := { NodeID := "1", ParentNodeID := "", PreviousNodeID := "",
                             ElementType := "DIV",
                             Attributes := [("onclick", "alert(1)")], Text := "" } }])
    ∧ IsEventHandler "onclick" = true := by
  refine ⟨by decide, by decide⟩

/-- Claim C2 (counterexample): after the initial walk records node 2 as a
`SCRIPT` element, `ProcessNodeInsertion` still emits an insert whose parent
is that script node: the script filter is applied only by the initial walk
and only to immediate children. -/
theorem insert_emitted_under_script_parent :
    GenerateInitialDOM NewDOMModel scriptChildTree =
      some ({ nodeIDMapping := [("2", "2"), ("1", "1")],
              backendNodeIDs := [("1", true), ("2", true)],
              nodeTypeMapping := [("1", "HTML"), ("2", "SCRIPT")] },
            .ok [{ Action := .insert,
                   Node := { NodeID := "1", ParentNodeID := "", PreviousNodeID := "",
                             ElementType := "HTML", Attributes := [], Text := "" } },
                 { Action := .insert,
                   Node := { NodeID := "2", ParentNodeID := "1", PreviousNodeID := "",
                             ElementType := "SCRIPT", Attributes := [], Text := "" } }])
    ∧ strToLower (assocFind
        ({ nodeIDMapping := [("2", "2"), ("1", "1")],
           backendNodeIDs := [("1", true), ("2", true)],
           nodeTypeMapping := [("1", "HTML"), ("2", "SCRIPT")] } : DOM).nodeTypeMapping "2") =
        "script"
    ∧ ProcessNodeInsertion
        { nodeIDMapping := [("2", "2"), ("1", "1")],
          backendNodeIDs := [("1", true), ("2", true)],
          nodeTypeMapping := [("1", "HTML"), ("2", "SCRIPT")] }
        insertUnderTwoPayload =
      some ({ nodeIDMapping := [("2", "2"), ("1", "1"), ("3", "3")],
              backendNodeIDs := [("1", true), ("2", true)],
              nodeTypeMapping := [("1", "HTML"), ("2", "SCRIPT"), ("3", "DIV")] },
            .ok { Action := .insert,
                  Node := { NodeID := "3", ParentNodeID := "2", PreviousNodeID := "",
                            ElementType := "DIV", Attributes := [], Text := "" } }) := by
  refine ⟨by decide, by decide, by decide⟩

/-- Claim C3 (counterexample): replaying the same `childNodeInserted` payload
twice yields two insert updates with the same stable ID `"3"` in one stream:
`ProcessNodeInsertion` never consults or updates the known-stable set. -/
theorem stable_id_in_two_inserts :
    runOps NewDOMModel
        [.genInitial divRootTree, .nodeInserted insertUnderOnePayload,
         .nodeInserted insertUnderOnePayload] =
      some ({ nodeIDMapping := [("1", "1"), ("3", "3")],
              backendNodeIDs := [("1", true)],
              nodeTypeMapping := [("1", "DIV"), ("3", "DIV")] },
            [{ Action := .insert,
               Node := { NodeID := "1", ParentNodeID := "", PreviousNodeID := "",
                         ElementType := "DIV", Attributes := [], Text := "" } },
             { Action := .insert,
               Node := { NodeID := "3", ParentNodeID := "1", PreviousNodeID := "",
                         ElementType := "DIV", Attributes := [], Text := "" } },
             { Action := .insert,
               Node := { NodeID := "3", ParentNodeID := "1", PreviousNodeID := "",
                         ElementType := "DIV", Attributes := [], Text := "" } }]) := by
  decide

/-- Claim C9 (counterexample): after a successful `RemoveInstance`, invoking
it again with the same ID leaves the state unchanged but returns an error
rather than succeeding. -/
theorem removeInstance_second_call_errors :
    RemoveInstance exampleManager 0 =
      ({ nextInstanceID := 1, instances := [], urls := [], useFullChrome := false }, none)
    ∧ RemoveInstance
        { nextInstanceID := 1, instances := [], urls := [], useFullChrome := false } 0 =
      ({ nextInstanceID := 1, instances := [], urls := [], useFullChrome := false },
       some "instance with this ID does not exist") := by
  refine ⟨by decide, by decide⟩

/-- Looking up the erased key always fails. -/
theorem assocLookup_erase_self {κ : Type u} {α : Type v} [BEq κ] [LawfulBEq κ]
    (m : List (κ × α)) (k : κ) : assocLookup (assocErase m k) k = none := by
  induction m with
  | nil => rfl
  | cons kv rest ih =>
    obtain ⟨k', v'⟩ := kv
    by_cases hk : k' == k
    · simpa [assocErase, hk, List.filter] using ih
    · simpa [assocErase, hk, List.filter, assocLookup] using ih

/-- Erasing a key leaves other keys' lookups unchanged. -/
theorem assocLookup_erase_ne {κ : Type u} {α : Type v} [BEq κ] [LawfulBEq κ]
    (m : List (κ × α)) (k k' : κ) (h : k' ≠ k) :
    assocLookup (assocErase m k) k' = assocLookup m k' := by
  induction m with
  | nil => rfl
  | cons kv rest ih =>
    obtain ⟨k0, v0⟩ := kv
    by_cases hk : k0 == k
    · have : (k0 == k') = false := by
        have := eq_of_beq hk
        subst this
        exact beq_eq_false_iff_ne.mpr (fun hh => h hh.symm)
      simpa [assocErase, List.filter, hk, assocLookup, this] using ih
    · by_cases hk' : k0 == k'
      · simp [assocErase, List.filter, hk, assocLookup, hk']
      · simpa [assocErase, List.filter, hk, assocLookup, hk'] using ih

/-- Looking up the just-inserted key returns the new value. -/
theorem assocLookup_insert_self {κ : Type u} {α : Type v} [BEq κ] [LawfulBEq κ]
    (m : List (κ × α)) (k : κ) (v : α) : assocLookup (assocInsert m k v) k = some v := by
  induction m with
  | nil => simp [assocInsert, assocLookup]
  | cons kv rest ih =>
    obtain ⟨k0, v0⟩ := kv
    by_cases hk : k0 == k
    · simp [assocInsert, hk, assocLookup]
    · simpa [assocInsert, hk, assocLookup] using ih

/-- Inserting a key leaves other keys' lookups unchanged. -/
theorem assocLookup_insert_ne {κ : Type u} {α : Type v} [BEq κ] [LawfulBEq κ]
    (m : List (κ × α)) (k k' : κ) (v : α) (h : k' ≠ k) :
    assocLookup (assocInsert m k v) k' = assocLookup m k' := by
  induction m with
  | nil =>
    have : (k == k') = false := beq_eq_false_iff_ne.mpr (fun hh => h hh.symm)
    simp [assocInsert, assocLookup, this]
  | cons kv rest ih =>
    obtain ⟨k0, v0⟩ := kv
    by_cases hk : k0 == k
    · have hne : (k == k') = false := beq_eq_false_iff_ne.mpr (fun hh => h hh.symm)
      have h0 : (k0 == k') = false := by
        have := eq_of_beq hk
        subst this
        exact hne
      simp [assocInsert, hk, assocLookup, hne, h0]
    · by_cases hk' : k0 == k'
      · simp [assocInsert, hk, assocLookup, hk']
      · simpa [assocInsert, hk, assocLookup, hk'] using ih

/-- Claim C9 (amended): repeating `RemoveInstance` with the same ID leaves
the manager's state unchanged but returns the `does not exist` error; the
first call removes the instance map entry unconditionally, and removes the
URL entry whenever it succeeds. -/
theorem removeInstance_state_idempotent (im : InstanceManager) (instanceID : Int) :
    RemoveInstance (RemoveInstance im instanceID).1 instanceID =
      ((RemoveInstance im instanceID).1, some "instance with this ID does not exist")
    ∧ assocLookup (RemoveInstance im instanceID).1.instances instanceID = none
    ∧ ((RemoveInstance im instanceID).2 = none →
        assocLookup (RemoveInstance im instanceID).1.urls instanceID = none) := by
  rcases h : assocLookup im.instances instanceID with _ | inst
  · refine ⟨?_, ?_, ?_⟩
    · simp [RemoveInstance, h]
    · simp [RemoveInstance, h]
    · intro hnone
      simp [RemoveInstance, h] at hnone
  · refine ⟨?_, ?_, ?_⟩
    · simp [RemoveInstance, h, assocLookup_erase_self]
    · simp [RemoveInstance, h, assocLookup_erase_self]
    · intro _
      simp [RemoveInstance, h, assocLookup_erase_self]

/-- Witness for `removeInstance_state_idempotent` at the concrete manager. -/
theorem removeInstance_state_idempotent_witness :
    assocLookup (RemoveInstance exampleManager 0).1.urls 0 = none :=
  (removeInstance_state_idempotent exampleManager 0).2.2 (by decide)

/-- `Nat.toDigitsCore` never discards an already nonempty accumulator. -/
theorem toDigitsCore_ne_nil_of_acc_ne_nil :
    ∀ (b fuel n : Nat) (ds : List Char), ds ≠ [] → Nat.toDigitsCore b fuel n ds ≠ []
  | _, 0, _, _, h => h
  | b, fuel + 1, n, ds, h => by
    rw [Nat.toDigitsCore]
    by_cases hz : n / b = 0
    · simp [hz]
    · simp only [hz, if_neg hz]
      exact toDigitsCore_ne_nil_of_acc_ne_nil b fuel (n / b) _ (by simp)

/-- `Nat.toDigitsCore` with at least one unit of fuel emits a digit. -/
theorem toDigitsCore_succ_ne_nil (b fuel n : Nat) (ds : List Char) :
    Nat.toDigitsCore b (fuel + 1) n ds ≠ [] := by
  rw [Nat.toDigitsCore]
  by_cases hz : n / b = 0
  · simp [hz]
  · simp only [hz, if_neg hz]
    exact toDigitsCore_ne_nil_of_acc_ne_nil b fuel (n / b) _ (by simp)

/-- The decimal representation of a natural number is never the empty string. -/
theorem natRepr_ne_empty (n : Nat) : Nat.repr n ≠ "" := by
  intro h
  have hd : (Nat.repr n).data = "".data := congrArg String.data h
  have : Nat.toDigits 10 n = [] := by
    simpa [Nat.repr, List.asString] using hd
  exact toDigitsCore_succ_ne_nil 10 n n [] (by simpa [Nat.toDigits] using this)

/-- `strconv.Itoa` of any integer is never the empty string. -/
theorem toString_int_ne_empty (i : Int) : toString i ≠ "" := by
  cases i with
  | ofNat m => exact natRepr_ne_empty m
  | negSucc m =>
    intro h
    have hd : (("-" : String) ++ toString (m + 1)).data = "".data := congrArg String.data h
    simp at hd

/-- Claim C8: `getNodeIDStr` returns `""` when the field holds the number 0,
the (nonempty) decimal string of the value truncated toward zero for any
other number, and an error exactly when the field is missing or its value is
not a number. -/
theorem getNodeIDStr_spec (node : Node) (field : String) :
    (assocLookup node field = some (JsonValue.num 0) → getNodeIDStr node field = .ok "")
    ∧ (∀ q : Rat, q ≠ 0 → assocLookup node field = some (JsonValue.num q) →
        getNodeIDStr node field = .ok (toString (intTruncOfRat q))
          ∧ toString (intTruncOfRat q) ≠ "")
    ∧ ((∃ e, getNodeIDStr node field = .error e) ↔
        (assocLookup node field = none ∨
         ∃ w, assocLookup node field = some w ∧ ∀ q : Rat, w ≠ JsonValue.num q)) := by
  refine ⟨?_, ?_, ?_⟩
  · intro h
    simp [getNodeIDStr, h]
  · intro q hq h
    exact ⟨by simp [getNodeIDStr, h, hq], toString_int_ne_empty _⟩
  · constructor
    · rintro ⟨e, he⟩
      rcases h : assocLookup node field with _ | w
      · exact Or.inl rfl
      · refine Or.inr ⟨w, rfl, ?_⟩
        intro q hwq
        subst hwq
        by_cases hq : q = 0 <;> simp [getNodeIDStr, h, hq] at he
    · rintro (h | ⟨w, h, hw⟩)
      · exact ⟨"node missing field " ++ field, by simp [getNodeIDStr, h]⟩
      · cases w with
        | num q => exact absurd rfl (hw q)
        | null => exact ⟨"field " ++ field ++ " is not a number", by simp [getNodeIDStr, h]⟩
        | bool b => exact ⟨"field " ++ field ++ " is not a number", by simp [getNodeIDStr, h]⟩
        | str s => exact ⟨"field " ++ field ++ " is not a number", by simp [getNodeIDStr, h]⟩
        | arr elems => exact ⟨"field " ++ field ++ " is not a number", by simp [getNodeIDStr, h]⟩
        | obj fields => exact ⟨"field " ++ field ++ " is not a number", by simp [getNodeIDStr, h]⟩

/-- Witness for `getNodeIDStr_spec`: the value 0 becomes the empty string
and -7/2 truncates toward zero to the string "-3". -/
theorem getNodeIDStr_spec_witness :
    getNodeIDStr [("nodeId", JsonValue.num 0)] "nodeId" = .ok ""
    ∧ getNodeIDStr [("nodeId", JsonValue.num (mkRat (-7) 2))] "nodeId" = .ok "-3" := by
  constructor
  · exact (getNodeIDStr_spec [("nodeId", JsonValue.num 0)] "nodeId").1 rfl
  · have h := ((getNodeIDStr_spec [("nodeId", JsonValue.num (mkRat (-7) 2))] "nodeId").2.1
      (mkRat (-7) 2) (by decide) rfl).1
    rw [h]
    decide

/-- On an even, all-string attribute list the loop folds the pairs into the
map from left to right. -/
theorem getAttributesLoop_even :
    ∀ (ps : List (String × String)) (m0 : List (String × String)),
      getAttributesLoop (interleavePairs ps) m0 =
        some (ps.foldl (fun m kv => assocInsert m kv.1 kv.2) m0)
  | [], m0 => rfl
  | (k, v) :: rest, m0 => by
    rw [interleavePairs, getAttributesLoop]
    exact getAttributesLoop_even rest (assocInsert m0 k v)

/-- With one trailing entry the loop reads past the end of the slice: the
embedding's panic. -/
theorem getAttributesLoop_odd :
    ∀ (ps : List (String × String)) (m0 : List (String × String)) (extra : JsonValue),
      getAttributesLoop (interleavePairs ps ++ [extra]) m0 = none
  | [], _, extra => rfl
  | (k, v) :: rest, m0, extra => by
    rw [interleavePairs, List.cons_append, List.cons_append, getAttributesLoop]
    exact getAttributesLoop_odd rest (assocInsert m0 k v) extra

/-- Claim C10: when the `attributes` field holds an even list
`[k0, v0, ..., k(n-1), v(n-1)]`, `getAttributes` returns the map sending
each `ki` to `vi` (a left fold of Go map assignments); with a trailing odd
entry the index `i+1` falls outside the slice, a panic in the source and
`none` in the embedding. -/
theorem getAttributes_spec (node : Node) (ps : List (String × String)) (extra : JsonValue) :
    (assocLookup node Attributes = some (.arr (interleavePairs ps)) →
      getAttributes node = some (ps.foldl (fun m kv => assocInsert m kv.1 kv.2) []))
    ∧ (assocLookup node Attributes = some (.arr (interleavePairs ps ++ [extra])) →
      getAttributes node = none) := by
  constructor
  · intro h
    rw [getAttributes, h]
    exact getAttributesLoop_even ps []
  · intro h
    rw [getAttributes, h]
    exact getAttributesLoop_odd ps [] extra

/-- Witness for `getAttributes_spec`: a two-pair attribute list maps both
keys; the same list with a dangling key panics. -/
theorem getAttributes_spec_witness :
    getAttributes [(Attributes,
        .arr [.str "k0", .str "v0", .str "k1", .str "v1"])] =
      some [("k0", "v0"), ("k1", "v1")]
    ∧ getAttributes [(Attributes,
        .arr [.str "k0", .str "v0", .str "k1", .str "v1", .str "dangling"])] = none := by
  constructor
  · exact (getAttributes_spec [(Attributes,
        .arr [.str "k0", .str "v0", .str "k1", .str "v1"])]
      [("k0", "v0"), ("k1", "v1")] (.str "dangling")).1 rfl
  · exact (getAttributes_spec [(Attributes,
        .arr [.str "k0", .str "v0", .str "k1", .str "v1", .str "dangling"])]
      [("k0", "v0"), ("k1", "v1")] (.str "dangling")).2 rfl

/-- `getNodeIDStr` errors only on missing or non-numeric fields. -/
theorem missingOrNonNumeric_of_error (node : Node) (field : String) (e : String)
    (h : getNodeIDStr node field = .error e) : missingOrNonNumeric node field = true := by
  rcases hl : assocLookup node field with _ | w
  · simp [missingOrNonNumeric, hl]
  · cases w with
    | num q =>
      by_cases hq : q = 0 <;> simp [getNodeIDStr, hl, hq] at h
    | null => simp [missingOrNonNumeric, hl]
    | bool b => simp [missingOrNonNumeric, hl]
    | str s => simp [missingOrNonNumeric, hl]
    | arr elems => simp [missingOrNonNumeric, hl]
    | obj fields => simp [missingOrNonNumeric, hl]

/-- `getNodeIDStr` succeeds only on numeric fields. -/
theorem missingOrNonNumeric_of_ok (node : Node) (field : String) (s : String)
    (h : getNodeIDStr node field = .ok s) : missingOrNonNumeric node field = false := by
  rcases hl : assocLookup node field with _ | w
  · simp [getNodeIDStr, hl] at h
  · cases w with
    | num q => simp [missingOrNonNumeric, hl]
    | null => simp [getNodeIDStr, hl] at h
    | bool b => simp [getNodeIDStr, hl] at h
    | str s' => simp [getNodeIDStr, hl] at h
    | arr elems => simp [getNodeIDStr, hl] at h
    | obj fields => simp [getNodeIDStr, hl] at h

/-- Given the converted ID string, the `non-zero and unmapped` condition is
exactly `the string is nonempty and unmapped` (the code's branch). -/
theorem nonZeroAndUnmapped_iff (d : DOM) (node : Node) (field : String) (s : String)
    (h : getNodeIDStr node field = .ok s) :
    nonZeroAndUnmapped d node field = true ↔
      (s ≠ "" ∧ assocLookup d.nodeIDMapping s = none) := by
  rcases hl : assocLookup node field with _ | w
  · simp [getNodeIDStr, hl] at h
  · cases w with
    | num q =>
      by_cases hq : q = 0
      · simp [getNodeIDStr, hl, hq] at h
        simp [nonZeroAndUnmapped, hl, hq, ← h]
      · simp [getNodeIDStr, hl, hq] at h
        subst h
        simp [nonZeroAndUnmapped, hl, hq, toString_int_ne_empty, Option.isNone_iff_eq_none]
    | null => simp [getNodeIDStr, hl] at h
    | bool b => simp [getNodeIDStr, hl] at h
    | str s' => simp [getNodeIDStr, hl] at h
    | arr elems => simp [getNodeIDStr, hl] at h
    | obj fields => simp [getNodeIDStr, hl] at h

/-- Shape of a successful `createNodeInsertUpdate`: an insert for the given
IDs; `nodeIDMapping` and `backendNodeIDs` untouched; the element type
recorded under the given node ID; scripts get an empty attribute map. -/
theorem createNodeInsertUpdate_some (d : DOM) (nodeID parentNodeID prevNodeID : String)
    (node : Node) (d1 : DOM) (u : DOMUpdate)
    (h : createNodeInsertUpdate d nodeID parentNodeID prevNodeID node = some (d1, u)) :
    u.Action = .insert ∧ u.Node.NodeID = nodeID ∧ u.Node.ParentNodeID = parentNodeID
    ∧ u.Node.PreviousNodeID = prevNodeID
    ∧ d1.nodeIDMapping = d.nodeIDMapping ∧ d1.backendNodeIDs = d.backendNodeIDs
    ∧ d1.nodeTypeMapping = assocInsert d.nodeTypeMapping nodeID u.Node.ElementType
    ∧ (strToLower u.Node.ElementType = "script" → u.Node.Attributes = []) := by
  rcases hl : assocLookup node NodeName with _ | w
  · simp [createNodeInsertUpdate, hl] at h
  · cases w with
    | str elementType =>
      by_cases hs : strToLower elementType = "script"
      · simp [createNodeInsertUpdate, hl, hs] at h
        rcases ht : assocLookup node NodeValue with _ | wt
        · simp [ht] at h
        · cases wt with
          | str text =>
            simp [ht] at h
            obtain ⟨hd1, hu⟩ := h
            subst hd1
            subst hu
            simp [hs]
          | null => simp [ht] at h
          | bool b => simp [ht] at h
          | num q => simp [ht] at h
          | arr elems => simp [ht] at h
          | obj fields => simp [ht] at h
      · simp [createNodeInsertUpdate, hl, hs] at h
        rcases ha : getAttributes node with _ | attrs
        · simp [ha] at h
        · rcases ht : assocLookup node NodeValue with _ | wt
          · simp [ha, ht] at h
          · cases wt with
            | str text =>
              simp [ha, ht] at h
              obtain ⟨hd1, hu⟩ := h
              subst hd1
              subst hu
              simp [hs]
            | null => simp [ha, ht] at h
            | bool b => simp [ha, ht] at h
            | num q => simp [ha, ht] at h
            | arr elems => simp [ha, ht] at h
            | obj fields => simp [ha, ht] at h
    | null => simp [createNodeInsertUpdate, hl] at h
    | bool b => simp [createNodeInsertUpdate, hl] at h
    | num q => simp [createNodeInsertUpdate, hl] at h
    | arr elems => simp [createNodeInsertUpdate, hl] at h
    | obj fields => simp [createNodeInsertUpdate, hl] at h

/-- Claim C6: `ProcessNodeInsertion` (when it does not panic: the payload's
`node` field is an object and the run returns) errors exactly when a
required ID field is missing or non-numeric or when a non-zero
`parentNodeId`/`previousNodeId` is absent from the protocol-to-stable
mapping; on error the model is unchanged; on success the single returned
update is an insert and the inserted node's protocol-to-stable mapping is
recorded. -/
theorem processNodeInsertion_spec (d : DOM) (payload nodeDetails : Node)
    (hnode : assocLookup payload NodeField = some (.obj nodeDetails))
    (res : DOM × Except String DOMUpdate)
    (hrun : ProcessNodeInsertion d payload = some res) :
    ((∃ e, res.2 = .error e) ↔
      (missingOrNonNumeric payload ParentNodeID = true
       ∨ nonZeroAndUnmapped d payload ParentNodeID = true
       ∨ missingOrNonNumeric payload PreviousNodeID = true
       ∨ nonZeroAndUnmapped d payload PreviousNodeID = true
       ∨ missingOrNonNumeric nodeDetails NodeID = true
       ∨ missingOrNonNumeric nodeDetails BackendNodeID = true))
    ∧ (∀ e, res.2 = .error e → res.1 = d)
    ∧ (∀ u, res.2 = .ok u → u.Action = .insert ∧
        ∀ nid bid, getNodeIDStr nodeDetails NodeID = .ok nid →
          getNodeIDStr nodeDetails BackendNodeID = .ok bid →
          assocLookup res.1.nodeIDMapping nid = some bid) := by
  simp only [ProcessNodeInsertion, hnode] at hrun
  split at hrun
  next e hp =>
    injection hrun with h
    subst h
    exact ⟨iff_of_true ⟨e, rfl⟩ (Or.inl (missingOrNonNumeric_of_error _ _ _ hp)),
           fun _ _ => rfl, fun u hu => by simp at hu⟩
  next p0 hp =>
    split at hrun
    next e heqP =>
      have hcond : p0 ≠ "" ∧ assocLookup d.nodeIDMapping p0 = none := by
        by_cases hp0 : p0 = ""
        · subst hp0
          simp at heqP
        · rcases hm : assocLookup d.nodeIDMapping p0 with _ | b
          · exact ⟨hp0, rfl⟩
          · have hb : (p0 != "") = true := bne_iff_ne.mpr hp0
            rw [if_pos hb, hm] at heqP
            simp at heqP
      injection hrun with h
      subst h
      exact ⟨iff_of_true ⟨e, rfl⟩
               (Or.inr (Or.inl ((nonZeroAndUnmapped_iff d payload ParentNodeID p0 hp).mpr hcond))),
             fun _ _ => rfl, fun u hu => by simp at hu⟩
    next P heqP =>
      have hnzaP : nonZeroAndUnmapped d payload ParentNodeID = false := by
        cases hnz : nonZeroAndUnmapped d payload ParentNodeID
        · rfl
        · obtain ⟨hne, hnone⟩ := (nonZeroAndUnmapped_iff d payload ParentNodeID p0 hp).mp hnz
          have hb : (p0 != "") = true := bne_iff_ne.mpr hne
          rw [if_pos hb, hnone] at heqP
          simp at heqP
      split at hrun
      next e hv =>
        injection hrun with h
        subst h
        exact ⟨iff_of_true ⟨e, rfl⟩
                 (Or.inr (Or.inr (Or.inl (missingOrNonNumeric_of_error _ _ _ hv)))),
               fun _ _ => rfl, fun u hu => by simp at hu⟩
      next v0 hv =>
        split at hrun
        next e heqV =>
          have hcond : v0 ≠ "" ∧ assocLookup d.nodeIDMapping v0 = none := by
            by_cases hv0 : v0 = ""
            · subst hv0
              simp at heqV
            · rcases hm : assocLookup d.nodeIDMapping v0 with _ | b
              · exact ⟨hv0, rfl⟩
              · have hb : (v0 != "") = true := bne_iff_ne.mpr hv0
                rw [if_pos hb, hm] at heqV
                simp at heqV
          injection hrun with h
          subst h
          exact ⟨iff_of_true ⟨e, rfl⟩
                   (Or.inr (Or.inr (Or.inr (Or.inl
                     ((nonZeroAndUnmapped_iff d payload PreviousNodeID v0 hv).mpr hcond))))),
                 fun _ _ => rfl, fun u hu => by simp at hu⟩
        next V heqV =>
          have hnzaV : nonZeroAndUnmapped d payload PreviousNodeID = false := by
            cases hnz : nonZeroAndUnmapped d payload PreviousNodeID
            · rfl
            · obtain ⟨hne, hnone⟩ :=
                (nonZeroAndUnmapped_iff d payload PreviousNodeID v0 hv).mp hnz
              have hb : (v0 != "") = true := bne_iff_ne.mpr hne
              rw [if_pos hb, hnone] at heqV
              simp at heqV
          split at hrun
          next e hn =>
            injection hrun with h
            subst h
            exact ⟨iff_of_true ⟨e, rfl⟩
                     (Or.inr (Or.inr (Or.inr (Or.inr (Or.inl
                       (missingOrNonNumeric_of_error _ _ _ hn)))))),
                   fun _ _ => rfl, fun u hu => by simp at hu⟩
          next nodeID0 hn =>
            split at hrun
            next e hb =>
              injection hrun with h
              subst h
              exact ⟨iff_of_true ⟨e, rfl⟩
                       (Or.inr (Or.inr (Or.inr (Or.inr (Or.inr
                         (missingOrNonNumeric_of_error _ _ _ hb)))))),
                     fun _ _ => rfl, fun u hu => by simp at hu⟩
            next backendID0 hb =>
              split at hrun
              next heqC => exact Option.noConfusion hrun
              next d1 insert heqC =>
                injection hrun with h
                subst h
                obtain ⟨hAct, hNid, hPar, hPrev, hMap, hSet, hType, hScript⟩ :=
                  createNodeInsertUpdate_some _ _ _ _ _ _ _ heqC
                refine ⟨iff_of_false ?_ ?_, fun e he => ?_, fun u hu => ?_⟩
                · rintro ⟨e, he⟩
                  simp at he
                · have h1 := missingOrNonNumeric_of_ok _ _ _ hp
                  have h3 := missingOrNonNumeric_of_ok _ _ _ hv
                  have h5 := missingOrNonNumeric_of_ok _ _ _ hn
                  have h6 := missingOrNonNumeric_of_ok _ _ _ hb
                  simp [h1, hnzaP, h3, hnzaV, h5, h6]
                · simp at he
                · have hui : insert = u := by simpa using hu
                  subst hui
                  refine ⟨hAct, ?_⟩
                  intro nid bid hnid hbid
                  rw [hn] at hnid
                  injection hnid with hnid
                  rw [hb] at hbid
                  injection hbid with hbid
                  subst hnid
                  subst hbid
                  show assocLookup (assocInsert d1.nodeIDMapping nodeID0 backendID0) nodeID0 =
                    some backendID0
                  exact assocLookup_insert_self _ _ _

/-- Witness for `processNodeInsertion_spec`: inserting node 4 under no
parent into a fresh model succeeds with one insert and records the mapping. -/
theorem processNodeInsertion_spec_witness :
    ProcessNodeInsertion NewDOMModel
        [(ParentNodeID, .num 0), (PreviousNodeID, .num 0),
         (NodeField, .obj [(NodeID, .num 4), (BackendNodeID, .num 4),
                           (NodeValue, .str "first"), (NodeName, .str "first")])] =
      some ({ nodeIDMapping := [("4", "4")], backendNodeIDs := [],
              nodeTypeMapping := [("4", "first")] },
            .ok { Action := .insert,
                  Node := { NodeID := "4", ParentNodeID := "", PreviousNodeID := "",
                            ElementType := "first", Attributes := [], Text := "first" } })
    ∧ assocLookup
        ({ nodeIDMapping := [("4", "4")], backendNodeIDs := [],
           nodeTypeMapping := [("4", "first")] } : DOM).nodeIDMapping "4" = some "4" := by
  constructor
  · decide
  · exact (((processNodeInsertion_spec NewDOMModel
      [(ParentNodeID, .num 0), (PreviousNodeID, .num 0),
       (NodeField, .obj [(NodeID, .num 4), (BackendNodeID, .num 4),
                         (NodeValue, .str "first"), (NodeName, .str "first")])]
      [(NodeID, .num 4), (BackendNodeID, .num 4),
       (NodeValue, .str "first"), (NodeName, .str "first")]
      rfl
      ({ nodeIDMapping := [("4", "4")], backendNodeIDs := [],
         nodeTypeMapping := [("4", "first")] },
       .ok { Action := .insert,
             Node := { NodeID := "4", ParentNodeID := "", PreviousNodeID := "",
                       ElementType := "first", Attributes := [], Text := "first" } })
      (by decide)).2.2
      { Action := .insert,
        Node := { NodeID := "4", ParentNodeID := "", PreviousNodeID := "",
                  ElementType := "first", Attributes := [], Text := "first" } }
      rfl).2 "4" "4" (by decide) (by decide))

/-- The just-inserted key is present. -/
theorem assocMem_insert_self {κ : Type u} {α : Type v} [BEq κ] [LawfulBEq κ]
    (m : List (κ × α)) (k : κ) (v : α) : assocMem (assocInsert m k v) k = true := by
  simp [assocMem, assocLookup_insert_self]

/-- Insertion preserves membership of every key. -/
theorem assocMem_insert_of_mem {κ : Type u} {α : Type v} [BEq κ] [LawfulBEq κ]
    (m : List (κ × α)) (k k' : κ) (v : α) (h : assocMem m k' = true) :
    assocMem (assocInsert m k v) k' = true := by
  by_cases hk : k' = k
  · subst hk
    exact assocMem_insert_self m k' v
  · simpa [assocMem, assocLookup_insert_ne m k k' v hk] using h

/-- The empty walk segment. -/
theorem walkInv_nil (d : DOM) : WalkInv d d [] := by
  refine ⟨fun k h => h, fun k _ => rfl, ?_, ?_, ?_, ?_, ?_⟩ <;> simp

/-- A walk segment stays a walk segment if its updates are discarded. -/
theorem walkInv_drop_updates (d d' : DOM) (ups : List DOMUpdate)
    (h : WalkInv d d' ups) : WalkInv d d' [] := by
  obtain ⟨h1, h2, _, _, _, _, _⟩ := h
  refine ⟨h1, h2, ?_, ?_, ?_, ?_, ?_⟩ <;> simp

/-- `WalkInv` only constrains the `backendNodeIDs` and `nodeTypeMapping`
fields, so rewriting `nodeIDMapping` preserves it. -/
theorem walkInv_set_nodeIDMapping (d d' : DOM) (m : List (String × String))
    (ups : List DOMUpdate) (h : WalkInv d d' ups) :
    WalkInv d { d' with nodeIDMapping := m } ups := h

/-- Composition of consecutive walk segments. -/
theorem walkInv_comp (d d1 d2 : DOM) (ups1 ups2 : List DOMUpdate)
    (h1 : WalkInv d d1 ups1) (h2 : WalkInv d1 d2 ups2) :
    WalkInv d d2 (ups1 ++ ups2) := by
  obtain ⟨m1, t1, a1, f1, n1, s1, e1⟩ := h1
  obtain ⟨m2, t2, a2, f2, n2, s2, e2⟩ := h2
  refine ⟨fun k h => m2 k (m1 k h), fun k h => (t2 k (m1 k h)).trans (t1 k h), ?_, ?_, ?_, ?_, ?_⟩
  · intro u hu
    rcases List.mem_append.mp hu with h | h
    · exact a1 u h
    · exact a2 u h
  · intro u hu
    rcases List.mem_append.mp hu with h | h
    · exact ⟨(f1 u h).1, m2 _ (f1 u h).2⟩
    · refine ⟨?_, (f2 u h).2⟩
      cases hd : assocMem d.backendNodeIDs u.Node.NodeID
      · rfl
      · have hmem1 := m1 _ hd
        rw [(f2 u h).1] at hmem1
        exact hmem1.symm
  · rw [List.map_append]
    rw [List.nodup_append]
    refine ⟨n1, n2, ?_⟩
    intro x hx1 hx2
    obtain ⟨u1, hu1, hx1⟩ := List.mem_map.mp hx1
    obtain ⟨u2, hu2, hx2⟩ := List.mem_map.mp hx2
    have hin : assocMem d1.backendNodeIDs x = true := hx1 ▸ (f1 u1 hu1).2
    have hout : assocMem d1.backendNodeIDs x = false := hx2 ▸ (f2 u2 hu2).1
    rw [hin] at hout
    exact Bool.noConfusion hout
  · intro pid hmem hkind u hu
    rcases List.mem_append.mp hu with h | h
    · exact s1 pid hmem hkind u h
    · refine s2 pid (m1 pid hmem) ?_ u h
      rw [assocFind, t1 pid hmem]
      exact hkind
  · intro u hu
    rcases List.mem_append.mp hu with h | h
    · exact e1 u h
    · exact e2 u h

/-- Marking a fresh backend ID as known (without emitting) is a walk segment. -/
theorem walkInv_markKnown (d : DOM) (b : String) :
    WalkInv d { d with backendNodeIDs := assocInsert d.backendNodeIDs b true } [] := by
  refine ⟨fun k hk => assocMem_insert_of_mem _ _ _ _ hk, fun k _ => rfl, ?_, ?_, ?_, ?_, ?_⟩
    <;> simp

/-- Emitting one insert for a fresh backend ID under a non-script parent is
a walk segment. -/
theorem walkInv_emit (d : DOM) (b p v : String) (curNode : Node) (d2 : DOM) (u : DOMUpdate)
    (hmem : assocMem d.backendNodeIDs b = false)
    (hg : (strToLower (assocFind d.nodeTypeMapping p) != "script") = true)
    (hc : createNodeInsertUpdate
        { d with backendNodeIDs := assocInsert d.backendNodeIDs b true } b p v curNode =
      some (d2, u)) :
    WalkInv d d2 [u] := by
  obtain ⟨hAct, hNid, hPar, hPrev, hMap, hSet, hType, hScript⟩ :=
    createNodeInsertUpdate_some _ _ _ _ _ _ _ hc
  refine ⟨?_, ?_, ?_, ?_, ?_, ?_, ?_⟩
  · intro k hk
    rw [hSet]
    exact assocMem_insert_of_mem _ b k true hk
  · intro k hk
    have hkb : k ≠ b := by
      intro hkb
      subst hkb
      rw [hk] at hmem
      exact Bool.noConfusion hmem
    rw [hType]
    exact assocLookup_insert_ne _ b k _ hkb
  · intro u' hu
    rw [List.mem_singleton] at hu
    subst hu
    exact hAct
  · intro u' hu
    rw [List.mem_singleton] at hu
    subst hu
    rw [hNid]
    refine ⟨hmem, ?_⟩
    rw [hSet]
    exact assocMem_insert_self _ _ _
  · simp
  · intro pid hpmem hpkind u' hu
    rw [List.mem_singleton] at hu
    subst hu
    rw [hPar]
    intro hpp
    subst hpp
    rw [hpkind] at hg
    simp at hg
  · intro u' hu
    rw [List.mem_singleton] at hu
    subst hu
    exact hScript

/-- The children loop preserves the walk invariant whenever the child walk
does. -/
theorem walkChildrenWith_inv
    (walk : DOM → Node → String → String → Option (DOM × List DOMUpdate × Except String String))
    (hwalk : ∀ (dA : DOM) (cn : Node) (pA vA : String)
        (res : DOM × List DOMUpdate × Except String String),
      walk dA cn pA vA = some res → WalkInv dA res.1 res.2.1) :
    ∀ (children : List JsonValue) (d : DOM) (p v : String)
      (d' : DOM) (ups : List DOMUpdate) (r : Except String String),
      walkChildrenWith walk d children p v = some (d', ups, r) → WalkInv d d' ups := by
  intro children
  induction children with
  | nil =>
    intro d p v d' ups r h
    simp only [walkChildrenWith, Option.some.injEq, Prod.mk.injEq] at h
    obtain ⟨rfl, rfl, rfl⟩ := h
    exact walkInv_nil d
  | cons c rest ih =>
    intro d p v d' ups r h
    cases c with
    | obj childNode =>
      rw [walkChildrenWith] at h
      split at h
      · exact Option.noConfusion h
      · next d1 ups1 e hw =>
        simp only [Option.some.injEq, Prod.mk.injEq] at h
        obtain ⟨rfl, rfl, rfl⟩ := h
        exact hwalk d childNode p v (d1, ups1, .error e) hw
      · next d1 ups1 newPrev hw =>
        split at h
        · exact Option.noConfusion h
        · next d2 ups2 r2 hrest =>
          simp only [Option.some.injEq, Prod.mk.injEq] at h
          obtain ⟨rfl, rfl, rfl⟩ := h
          exact walkInv_comp d d1 d2 ups1 ups2
            (hwalk d childNode p v (d1, ups1, .ok newPrev) hw)
            (ih d1 p newPrev d2 ups2 r2 hrest)
    | null => exact Option.noConfusion h
    | bool b => exact Option.noConfusion h
    | num q => exact Option.noConfusion h
    | str s => exact Option.noConfusion h
    | arr elems => exact Option.noConfusion h

/-- The fuelled walk satisfies the walk invariant. -/
theorem generateInitialDOMHelperFuel_inv :
    ∀ (fuel : Nat) (d : DOM) (curNode : Node) (p v : String)
      (d' : DOM) (ups : List DOMUpdate) (r : Except String String),
      generateInitialDOMHelperFuel fuel d curNode p v = some (d', ups, r) →
      WalkInv d d' ups := by
  intro fuel
  induction fuel with
  | zero =>
    intro d curNode p v d' ups r h
    exact Option.noConfusion h
  | succ fuel ih =>
    intro d curNode p v d' ups r h
    rw [generateInitialDOMHelperFuel] at h
    split at h
    · next e hb =>
      simp only [Option.some.injEq, Prod.mk.injEq] at h
      obtain ⟨rfl, rfl, rfl⟩ := h
      exact walkInv_nil d
    · next b hb =>
      split at h
      · next e hn =>
        simp only [Option.some.injEq, Prod.mk.injEq] at h
        obtain ⟨rfl, rfl, rfl⟩ := h
        exact walkInv_nil d
      · next nid hn =>
        split at h
        · exact Option.noConfusion h
        · next d1 ups1 heq1 =>
          have hstep : WalkInv d d1 ups1 := by
            by_cases hmem : assocMem d.backendNodeIDs b = true
            · rw [if_pos hmem] at heq1
              simp only [Option.some.injEq, Prod.mk.injEq] at heq1
              obtain ⟨rfl, rfl⟩ := heq1
              exact walkInv_nil d
            · rw [if_neg hmem] at heq1
              by_cases hg : (strToLower (assocFind d.nodeTypeMapping p) != "script") = true
              · rw [if_pos hg] at heq1
                rcases hc : createNodeInsertUpdate
                    { d with backendNodeIDs := assocInsert d.backendNodeIDs b true }
                    b p v curNode with _ | ⟨d2, ins⟩
                · rw [hc] at heq1
                  exact Option.noConfusion heq1
                · rw [hc] at heq1
                  simp only [Option.some.injEq, Prod.mk.injEq] at heq1
                  obtain ⟨rfl, rfl⟩ := heq1
                  exact walkInv_emit d b p v curNode _ _
                    (Bool.not_eq_true _ ▸ hmem) hg hc
              · rw [if_neg hg] at heq1
                simp only [Option.some.injEq, Prod.mk.injEq] at heq1
                obtain ⟨rfl, rfl⟩ := heq1
                exact walkInv_markKnown d b
          split at h
          · next hch =>
            simp only [Option.some.injEq, Prod.mk.injEq] at h
            obtain ⟨rfl, rfl, rfl⟩ := h
            exact walkInv_set_nodeIDMapping _ _ _ _ hstep
          · next hch =>
            simp only [Option.some.injEq, Prod.mk.injEq] at h
            obtain ⟨rfl, rfl, rfl⟩ := h
            exact walkInv_set_nodeIDMapping _ _ _ _ hstep
          · next children hch =>
            have hwalkext : ∀ (dA : DOM) (cn : Node) (pA vA : String)
                (res : DOM × List DOMUpdate × Except String String),
                generateInitialDOMHelperFuel fuel dA cn pA vA = some res →
                WalkInv dA res.1 res.2.1 := by
              intro dA cn pA vA res hres
              exact ih dA cn pA vA res.1 res.2.1 res.2.2 hres
            split at h
            · exact Option.noConfusion h
            · next dC upsC e hw =>
              simp only [Option.some.injEq, Prod.mk.injEq] at h
              obtain ⟨rfl, rfl, rfl⟩ := h
              exact walkInv_comp d d1 dC ups1 upsC hstep
                (walkChildrenWith_inv _ hwalkext children d1 b "" dC upsC (.error e) hw)
            · next dC upsC newP hw =>
              simp only [Option.some.injEq, Prod.mk.injEq] at h
              obtain ⟨rfl, rfl, rfl⟩ := h
              exact walkInv_set_nodeIDMapping _ _ _ _
                (walkInv_comp d d1 dC ups1 upsC hstep
                  (walkChildrenWith_inv _ hwalkext children d1 b "" dC upsC (.ok newP) hw))
          · next val hch => exact Option.noConfusion h

/-- `generateInitialDOMHelper` satisfies the walk invariant. -/
theorem generateInitialDOMHelper_inv (d : DOM) (curNode : Node) (p v : String)
    (d' : DOM) (ups : List DOMUpdate) (r : Except String String)
    (h : generateInitialDOMHelper d curNode p v = some (d', ups, r)) :
    WalkInv d d' ups :=
  generateInitialDOMHelperFuel_inv (jsonSizeFields curNode) d curNode p v d' ups r h

/-- The `ProcessSetChildNodes` loop satisfies the walk invariant. -/
theorem setChildNodesLoop_inv :
    ∀ (nodes : List JsonValue) (d : DOM) (pB prev : String)
      (d' : DOM) (ups : List DOMUpdate),
      setChildNodesLoop d nodes pB prev = some (d', ups) → WalkInv d d' ups := by
  intro nodes
  induction nodes with
  | nil =>
    intro d pB prev d' ups h
    simp only [setChildNodesLoop, Option.some.injEq, Prod.mk.injEq] at h
    obtain ⟨rfl, rfl⟩ := h
    exact walkInv_nil d
  | cons n rest ih =>
    intro d pB prev d' ups h
    cases n with
    | obj curNode =>
      rw [setChildNodesLoop] at h
      split at h
      · exact Option.noConfusion h
      · next d1 subUpdates r1 hw =>
        split at h
        · exact Option.noConfusion h
        · next d2 ups2 hrest =>
          simp only [Option.some.injEq, Prod.mk.injEq] at h
          obtain ⟨rfl, rfl⟩ := h
          exact walkInv_comp d d1 d2 subUpdates ups2
            (generateInitialDOMHelper_inv d curNode pB prev d1 subUpdates r1 hw)
            (ih d1 pB _ d2 ups2 hrest)
    | null => exact Option.noConfusion h
    | bool b => exact Option.noConfusion h
    | num q => exact Option.noConfusion h
    | str s => exact Option.noConfusion h
    | arr elems => exact Option.noConfusion h

/-- `GenerateInitialDOM` satisfies the walk invariant (with no updates
delivered on error). -/
theorem generateInitialDOM_inv (d : DOM) (root : Node) (dx : DOM)
    (r : Except String (List DOMUpdate)) (h : GenerateInitialDOM d root = some (dx, r)) :
    (∀ ups, r = .ok ups → WalkInv d dx ups) ∧ (∀ e, r = .error e → WalkInv d dx []) := by
  rw [GenerateInitialDOM] at h
  split at h
  · exact Option.noConfusion h
  · next d1 ups1 e hh =>
    simp only [Option.some.injEq, Prod.mk.injEq] at h
    obtain ⟨rfl, rfl⟩ := h
    refine ⟨fun ups hok => Except.noConfusion hok, fun e' _ => ?_⟩
    exact walkInv_drop_updates _ _ _ (generateInitialDOMHelper_inv d root "" "" _ ups1 (.error e) hh)
  · next d1 ups1 x hh =>
    simp only [Option.some.injEq, Prod.mk.injEq] at h
    obtain ⟨rfl, rfl⟩ := h
    refine ⟨fun ups hok => ?_, fun e' herr => Except.noConfusion herr⟩
    injection hok with hok
    subst hok
    exact generateInitialDOMHelper_inv d root "" "" _ ups1 (.ok x) hh

/-- `ProcessSetChildNodes` satisfies the walk invariant (with no updates
delivered on error). -/
theorem processSetChildNodes_inv (d : DOM) (payload : Node) (dx : DOM)
    (r : Except String (List DOMUpdate)) (h : ProcessSetChildNodes d payload = some (dx, r)) :
    (∀ ups, r = .ok ups → WalkInv d dx ups) ∧ (∀ e, r = .error e → WalkInv d dx []) := by
  rw [ProcessSetChildNodes] at h
  split at h
  · next e hpe =>
    simp only [Option.some.injEq, Prod.mk.injEq] at h
    obtain ⟨rfl, rfl⟩ := h
    exact ⟨fun ups hok => Except.noConfusion hok, fun e' _ => walkInv_nil d⟩
  · next pid0 hp0 =>
    split at h
    · next e hpb =>
      simp only [Option.some.injEq, Prod.mk.injEq] at h
      obtain ⟨rfl, rfl⟩ := h
      exact ⟨fun ups hok => Except.noConfusion hok, fun e' _ => walkInv_nil d⟩
    · next parentBackendID hpb =>
      split at h
      · next nodes hns =>
        split at h
        · exact Option.noConfusion h
        · next d2 result hloop =>
          simp only [Option.some.injEq, Prod.mk.injEq] at h
          obtain ⟨rfl, rfl⟩ := h
          refine ⟨fun ups hok => ?_, fun e' herr => Except.noConfusion herr⟩
          injection hok with hok
          subst hok
          exact setChildNodesLoop_inv nodes d parentBackendID "" _ _ hloop
      · exact Option.noConfusion h

/-- Every tree-walking operation satisfies the walk invariant. -/
theorem runOp_walk_inv (d : DOM) (op : Op) (hop : Op.isWalk op = true)
    (d' : DOM) (ups : List DOMUpdate) (h : runOp d op = some (d', ups)) :
    WalkInv d d' ups := by
  cases op with
  | genInitial root =>
    rw [runOp] at h
    split at h
    · exact Option.noConfusion h
    · next d1 ups1 hh =>
      simp only [Option.some.injEq, Prod.mk.injEq] at h
      obtain ⟨rfl, rfl⟩ := h
      exact (generateInitialDOM_inv d root _ (.ok _) hh).1 _ rfl
    · next d1 e hh =>
      simp only [Option.some.injEq, Prod.mk.injEq] at h
      obtain ⟨rfl, rfl⟩ := h
      exact (generateInitialDOM_inv d root _ (.error e) hh).2 e rfl
  | setChildNodes payload =>
    rw [runOp] at h
    split at h
    · exact Option.noConfusion h
    · next d1 ups1 hh =>
      simp only [Option.some.injEq, Prod.mk.injEq] at h
      obtain ⟨rfl, rfl⟩ := h
      exact (processSetChildNodes_inv d payload _ (.ok _) hh).1 _ rfl
    · next d1 e hh =>
      simp only [Option.some.injEq, Prod.mk.injEq] at h
      obtain ⟨rfl, rfl⟩ := h
      exact (processSetChildNodes_inv d payload _ (.error e) hh).2 e rfl
  | nodeInserted payload => exact Bool.noConfusion hop
  | nodeRemoved payload => exact Bool.noConfusion hop
  | attrModified payload => exact Bool.noConfusion hop

/-- Sequences of tree-walking operations satisfy the walk invariant. -/
theorem runOps_walk_inv :
    ∀ (ops : List Op) (d : DOM), (∀ op ∈ ops, Op.isWalk op = true) →
      ∀ (d' : DOM) (ups : List DOMUpdate), runOps d ops = some (d', ups) →
      WalkInv d d' ups := by
  intro ops
  induction ops with
  | nil =>
    intro d _ d' ups h
    simp only [runOps, Option.some.injEq, Prod.mk.injEq] at h
    obtain ⟨rfl, rfl⟩ := h
    exact walkInv_nil d
  | cons op rest ih =>
    intro d hops d' ups h
    rw [runOps] at h
    split at h
    · exact Option.noConfusion h
    · next d1 ups1 h1 =>
      split at h
      · exact Option.noConfusion h
      · next d2 ups2 h2 =>
        simp only [Option.some.injEq, Prod.mk.injEq] at h
        obtain ⟨rfl, rfl⟩ := h
        exact walkInv_comp d d1 _ ups1 ups2
          (runOp_walk_inv d op (hops op (List.mem_cons_self _ _)) d1 ups1 h1)
          (ih d1 (fun o ho => hops o (List.mem_cons_of_mem _ ho)) _ ups2 h2)

/-- Claim C3 (amended): across any sequence of tree-walking operations
(`GenerateInitialDOM`, `ProcessSetChildNodes`) from a fresh model, each
stable ID appears in at most one emitted insert. -/
theorem walk_ops_insert_at_most_once (ops : List Op)
    (hops : ∀ op ∈ ops, Op.isWalk op = true)
    (d' : DOM) (ups : List DOMUpdate)
    (hrun : runOps NewDOMModel ops = some (d', ups)) :
    ((ups.filter (fun u => u.Action == DomAction.insert)).map
      (fun u => u.Node.NodeID)).Nodup := by
  obtain ⟨_, _, hact, _, hnodup, _, _⟩ := runOps_walk_inv ops NewDOMModel hops d' ups hrun
  have hfilter : ups.filter (fun u => u.Action == DomAction.insert) = ups := by
    apply List.filter_eq_self.mpr
    intro u hu
    simp [hact u hu]
  rw [hfilter]
  exact hnodup

/-- Witness for `walk_ops_insert_at_most_once` on a one-node initial DOM. -/
theorem walk_ops_insert_at_most_once_witness :
    ((([{ Action := DomAction.insert,
          Node := { NodeID := "1", ParentNodeID := "", PreviousNodeID := "",
                    ElementType := "DIV", Attributes := [], Text := "" } }] :
        List DOMUpdate).filter
        (fun u => u.Action == DomAction.insert)).map (fun u => u.Node.NodeID)).Nodup :=
  walk_ops_insert_at_most_once [.genInitial divRootTree] (by decide)
    { nodeIDMapping := [("1", "1")], backendNodeIDs := [("1", true)],
      nodeTypeMapping := [("1", "DIV")] }
    [{ Action := DomAction.insert,
       Node := { NodeID := "1", ParentNodeID := "", PreviousNodeID := "",
                 ElementType := "DIV", Attributes := [], Text := "" } }]
    (by decide)

/-- Claim C2 (amended): once a stable ID is known with recorded kind
`script`, no update emitted by any later sequence of tree-walking operations
has that ID as its parent. -/
theorem walk_ops_no_insert_under_recorded_script (d : DOM) (pid : String)
    (hmem : assocMem d.backendNodeIDs pid = true)
    (hkind : strToLower (assocFind d.nodeTypeMapping pid) = "script")
    (ops : List Op) (hops : ∀ op ∈ ops, Op.isWalk op = true)
    (d' : DOM) (ups : List DOMUpdate) (hrun : runOps d ops = some (d', ups)) :
    ∀ u ∈ ups, u.Node.ParentNodeID ≠ pid :=
  (runOps_walk_inv ops d hops d' ups hrun).2.2.2.2.2.1 pid hmem hkind

/-- Witness for `walk_ops_no_insert_under_recorded_script`: with node 2
recorded as script, walking a fresh `P` root emits no update under parent 2. -/
theorem walk_ops_no_insert_under_recorded_script_witness :
    ({ Action := DomAction.insert,
       Node := { NodeID := "9", ParentNodeID := "", PreviousNodeID := "",
                 ElementType := "P", Attributes := [], Text := "" } } : DOMUpdate).Node.ParentNodeID ≠
      "2" :=
  walk_ops_no_insert_under_recorded_script
    { nodeIDMapping := [("2", "2"), ("1", "1")],
      backendNodeIDs := [("1", true), ("2", true)],
      nodeTypeMapping := [("1", "HTML"), ("2", "SCRIPT")] }
    "2" (by decide) (by decide)
    [.genInitial pTree] (by decide)
    { nodeIDMapping := [("2", "2"), ("1", "1"), ("9", "9")],
      backendNodeIDs := [("1", true), ("2", true), ("9", true)],
      nodeTypeMapping := [("1", "HTML"), ("2", "SCRIPT"), ("9", "P")] }
    [{ Action := DomAction.insert,
       Node := { NodeID := "9", ParentNodeID := "", PreviousNodeID := "",
                 ElementType := "P", Attributes := [], Text := "" } }]
    (by decide)
    { Action := DomAction.insert,
      Node := { NodeID := "9", ParentNodeID := "", PreviousNodeID := "",
                ElementType := "P", Attributes := [], Text := "" } }
    (by decide)

/-- A successful `ProcessNodeInsertion` inherits the script-attribute
property of `createNodeInsertUpdate`. -/
theorem processNodeInsertion_ok_script (d : DOM) (payload : Node) (d1 : DOM) (u : DOMUpdate)
    (h : ProcessNodeInsertion d payload = some (d1, .ok u)) :
    strToLower u.Node.ElementType = "script" → u.Node.Attributes = [] := by
  rw [ProcessNodeInsertion] at h
  split at h
  · split at h
    · simp at h
    · split at h
      · simp at h
      · split at h
        · simp at h
        · split at h
          · simp at h
          · split at h
            · simp at h
            · split at h
              · simp at h
              · split at h
                · exact Option.noConfusion h
                · next d2 ins hc =>
                  simp only [Option.some.injEq, Prod.mk.injEq, Except.ok.injEq] at h
                  obtain ⟨h1, rfl⟩ := h
                  exact (createNodeInsertUpdate_some _ _ _ _ _ _ _ hc).2.2.2.2.2.2.2
  · exact Option.noConfusion h

/-- A successful `ProcessNodeRemoval` returns a remove update with an empty
element type and no attributes. -/
theorem processNodeRemoval_ok_shape (d : DOM) (node : Node) (d1 : DOM) (u : DOMUpdate)
    (h : ProcessNodeRemoval d node = (d1, .ok u)) :
    u.Node.ElementType = "" := by
  rw [ProcessNodeRemoval] at h
  split at h
  · simp only [Prod.mk.injEq] at h
    exact absurd h.2 (by simp)
  · split at h
    · simp only [Prod.mk.injEq] at h
      exact absurd h.2 (by simp)
    · split at h
      · simp only [Prod.mk.injEq] at h
        exact absurd h.2 (by simp)
      · split at h
        · simp only [Prod.mk.injEq] at h
          exact absurd h.2 (by simp)
        · simp only [Prod.mk.injEq, Except.ok.injEq] at h
          obtain ⟨h1, rfl⟩ := h
          rfl

/-- A successful `ProcessNodeAttributeModification` returns a modify update
with an empty element type. -/
theorem processNodeAttributeModification_ok_shape (d : DOM) (node : Node) (d1 : DOM)
    (u : DOMUpdate) (h : ProcessNodeAttributeModification d node = some (d1, .ok u)) :
    u.Node.ElementType = "" := by
  rw [ProcessNodeAttributeModification] at h
  split at h
  · simp at h
  · split at h
    · simp at h
    · split at h
      · split at h
        · simp only [Option.some.injEq, Prod.mk.injEq, Except.ok.injEq] at h
          obtain ⟨h1, rfl⟩ := h
          rfl
        · exact Option.noConfusion h
      · exact Option.noConfusion h

/-- Every operation's emitted updates satisfy the script-attribute property:
an update whose element type lowercases to `script` has no attributes. -/
theorem runOp_scriptEmpty (d : DOM) (op : Op) (d' : DOM) (ups : List DOMUpdate)
    (h : runOp d op = some (d', ups)) :
    ∀ u ∈ ups, strToLower u.Node.ElementType = "script" → u.Node.Attributes = [] := by
  cases op with
  | genInitial root =>
    rw [runOp] at h
    split at h
    · exact Option.noConfusion h
    · next d1 ups1 hh =>
      simp only [Option.some.injEq, Prod.mk.injEq] at h
      obtain ⟨rfl, rfl⟩ := h
      exact ((generateInitialDOM_inv d root _ (.ok _) hh).1 _ rfl).2.2.2.2.2.2
    · next d1 e hh =>
      simp only [Option.some.injEq, Prod.mk.injEq] at h
      obtain ⟨rfl, rfl⟩ := h
      simp
  | setChildNodes payload =>
    rw [runOp] at h
    split at h
    · exact Option.noConfusion h
    · next d1 ups1 hh =>
      simp only [Option.some.injEq, Prod.mk.injEq] at h
      obtain ⟨rfl, rfl⟩ := h
      exact ((processSetChildNodes_inv d payload _ (.ok _) hh).1 _ rfl).2.2.2.2.2.2
    · next d1 e hh =>
      simp only [Option.some.injEq, Prod.mk.injEq] at h
      obtain ⟨rfl, rfl⟩ := h
      simp
  | nodeInserted payload =>
    rw [runOp] at h
    split at h
    · exact Option.noConfusion h
    · next d1 u1 hh =>
      simp only [Option.some.injEq, Prod.mk.injEq] at h
      obtain ⟨rfl, rfl⟩ := h
      intro u hu
      rw [List.mem_singleton] at hu
      subst hu
      exact processNodeInsertion_ok_script d payload _ u hh
    · next d1 e hh =>
      simp only [Option.some.injEq, Prod.mk.injEq] at h
      obtain ⟨rfl, rfl⟩ := h
      simp
  | nodeRemoved payload =>
    rw [runOp] at h
    split at h
    · next d1 u1 hh =>
      simp only [Option.some.injEq, Prod.mk.injEq] at h
      obtain ⟨rfl, rfl⟩ := h
      intro u hu hscript
      rw [List.mem_singleton] at hu
      subst hu
      rw [processNodeRemoval_ok_shape d payload _ u hh] at hscript
      exact absurd hscript (by decide)
    · next d1 e hh =>
      simp only [Option.some.injEq, Prod.mk.injEq] at h
      obtain ⟨rfl, rfl⟩ := h
      simp
  | attrModified payload =>
    rw [runOp] at h
    split at h
    · exact Option.noConfusion h
    · next d1 u1 hh =>
      simp only [Option.some.injEq, Prod.mk.injEq] at h
      obtain ⟨rfl, rfl⟩ := h
      intro u hu hscript
      rw [List.mem_singleton] at hu
      subst hu
      rw [processNodeAttributeModification_ok_shape d payload _ u hh] at hscript
      exact absurd hscript (by decide)
    · next d1 e hh =>
      simp only [Option.some.injEq, Prod.mk.injEq] at h
      obtain ⟨rfl, rfl⟩ := h
      simp

/-- Claim C1 (amended): across any sequence of DOM Model operations, every
emitted update whose element type lowercases to `script` carries an empty
attribute map (the model filters attributes only for script elements; keys
beginning with `on` are not filtered, see the counterexample). -/
theorem dom_model_script_updates_have_no_attributes :
    ∀ (ops : List Op) (d : DOM) (d' : DOM) (ups : List DOMUpdate),
      runOps d ops = some (d', ups) →
      ∀ u ∈ ups, strToLower u.Node.ElementType = "script" → u.Node.Attributes = [] := by
  intro ops
  induction ops with
  | nil =>
    intro d d' ups h
    simp only [runOps, Option.some.injEq, Prod.mk.injEq] at h
    obtain ⟨rfl, rfl⟩ := h
    simp
  | cons op rest ih =>
    intro d d' ups h
    rw [runOps] at h
    split at h
    · exact Option.noConfusion h
    · next d1 ups1 h1 =>
      split at h
      · exact Option.noConfusion h
      · next d2 ups2 h2 =>
        simp only [Option.some.injEq, Prod.mk.injEq] at h
        obtain ⟨rfl, rfl⟩ := h
        intro u hu
        rcases List.mem_append.mp hu with hm | hm
        · exact runOp_scriptEmpty d op d1 ups1 h1 u hm
        · exact ih d1 _ ups2 h2 u hm

/-- Witness for `dom_model_script_updates_have_no_attributes`: a `SCRIPT`
root that arrives with an `onclick` attribute pair is emitted with an empty
attribute map. -/
theorem dom_model_script_updates_have_no_attributes_witness :
    ({ Action := DomAction.insert,
       Node := { NodeID := "1", ParentNodeID := "", PreviousNodeID := "",
                 ElementType := "SCRIPT", Attributes := [], Text := "" } } :
      DOMUpdate).Node.Attributes = [] :=
  dom_model_script_updates_have_no_attributes [.genInitial scriptOnlyTree]
    NewDOMModel
    { nodeIDMapping := [("1", "1")], backendNodeIDs := [("1", true)],
      nodeTypeMapping := [("1", "SCRIPT")] }
    [{ Action := DomAction.insert,
       Node := { NodeID := "1", ParentNodeID := "", PreviousNodeID := "",
                 ElementType := "SCRIPT", Attributes := [], Text := "" } }]
    (by decide)
    { Action := DomAction.insert,
      Node := { NodeID := "1", ParentNodeID := "", PreviousNodeID := "",
                ElementType := "SCRIPT", Attributes := [], Text := "" } }
    (by decide) (by decide)

/-- Claim C4 (counterexample): the sanitizer unescapes leading text
verbatim, so its output on `&lt;/script&gt;` is the literal substring
`</script>`; sanitizing that output again removes it entirely, so the
sanitizer is not idempotent either. -/
theorem sanitize_output_contains_script_close :
    removeScriptTags "&lt;/script&gt;" = some "</script>"
    ∧ removeScriptTags "</script>" = some "" := by
  refine ⟨by decide, by decide⟩

/-- Claim C4 (amended): every token the sanitizer loop emits has had all
attributes whose key begins with `on` removed, and no emitted tag token is a
`script` tag (emitted text tokens carry no attributes by construction). -/
theorem sanitize_loop_no_event_handlers_no_script_tags :
    ∀ (toks : List Token) (firstToken lastTokenWasScript lastTokenWasStyle : Bool)
      (p : Token × Bool),
      p ∈ removeScriptTagsLoop firstToken lastTokenWasScript lastTokenWasStyle toks →
      (∀ a ∈ p.1.Attr, IsEventHandler a.Key = false)
      ∧ (p.1.tokType ≠ TokenType.TextToken → p.1.DataAtom ≠ "script") := by
  intro toks
  induction toks with
  | nil =>
    intro firstToken lastTokenWasScript lastTokenWasStyle p hp
    simp [removeScriptTagsLoop] at hp
  | cons tk0 rest ih =>
    intro firstToken lastTokenWasScript lastTokenWasStyle p hp
    simp only [removeScriptTagsLoop] at hp
    split at hp
    · next h1 =>
      rcases List.mem_cons.mp hp with rfl | hp'
      · constructor
        · intro a ha
          have := (List.mem_filter.mp ha).2
          simpa using this
        · intro htype
          have h2 := (Bool.and_eq_true _ _).mp h1
          exact absurd (by simpa using h2.2) htype
      · exact ih _ _ _ p hp'
    · next h1 =>
      split at hp
      · exact ih _ _ _ p hp
      · split at hp
        · exact ih _ _ _ p hp
        · next hscript =>
          rcases List.mem_cons.mp hp with rfl | hp'
          · constructor
            · intro a ha
              have := (List.mem_filter.mp ha).2
              simpa using this
            · intro _
              simpa using hscript
          · exact ih _ _ _ p hp'

/-- Witness for `sanitize_loop_no_event_handlers_no_script_tags`: a kept
`div` start tag has its surviving attribute key `class`, which is not an
event handler. -/
theorem sanitize_loop_witness : IsEventHandler "class" = false :=
  (sanitize_loop_no_event_handlers_no_script_tags
    [{ tokType := .StartTagToken, Data := "div", DataAtom := "",
       Attr := [{ Key := "class", Val := "x" }, { Key := "onclick", Val := "y" }] }]
    true false false
    ({ tokType := .StartTagToken, Data := "div", DataAtom := "",
       Attr := [{ Key := "class", Val := "x" }] }, false)
    (by decide)).1 { Key := "class", Val := "x" } (by decide)
